import Mathlib

/-!
MeshResourceMarker and the marker table of MarkerDisplay

A shallow embedding of `markers/mesh_resource_marker.cpp` and of the marker
table declared in `marker_display.h`.

The C++ talks to two host frameworks (the Ogre scene graph and the rviz
display).  The parts of them the marker touches are modelled as explicit
state: a heap of material objects with the name registry of
`Ogre::MaterialManager`, the entity names of the `Ogre::SceneManager`, the
resource table behind `loadMeshFromResource`, the function-local static
`count`, the warning log, and the status table of the owning display.
Exceptions thrown by Ogre and null dereferences are the `Fault` results.
-/

namespace animated_marker_rviz_plugin

/-! ## Single-precision values -/

/-- A value of the C++ type `float`: a finite value (its exact rational value,
both zeroes being `fin 0`), an infinity, or a NaN. -/
inductive Real32 where
  | fin (q : ℚ)
  | inf (negative : Bool)
  | nan
deriving DecidableEq

namespace Real32

/-- C++ `x == y` on floats: false as soon as one side is a NaN. -/
def eq : Real32 → Real32 → Bool
  | fin a, fin b => decide (a = b)
  | inf s, inf t => s == t
  | _, _ => false

/-- C++ `x != y` on floats. -/
def ne (x y : Real32) : Bool := !(x.eq y)

/-- C++ `x < c` for a finite literal `c`: false for a NaN. -/
def ltConst : Real32 → ℚ → Bool
  | fin a, c => decide (a < c)
  | inf s, _ => s
  | nan, _ => false

/-- The integer nearest to `q`, a tie going to the even one (the IEEE rounding
`roundTiesToEven`). -/
def roundTiesEven (q : ℚ) : ℤ :=
  if q - ⌊q⌋ < 1 / 2 then ⌊q⌋
  else if 1 / 2 < q - ⌊q⌋ then ⌊q⌋ + 1
  else if ⌊q⌋ % 2 = 0 then ⌊q⌋
  else ⌊q⌋ + 1

/-- C++ `x * 0.5` passed to a `float` parameter (`Ogre::Real` is `float`): the
product is formed in double, where it is exact for a float `x`, and is then
narrowed to float.  A float of magnitude at least 2^-125 has a float as its
half (only the exponent changes).  A smaller float is a multiple of 2^-149,
the spacing of the floats below 2^-125, and its half is rounded to the nearest
multiple of 2^-149, a tie going to the even multiple. -/
def half : Real32 → Real32
  | fin a =>
    if -(1 / 2 ^ 125) < a ∧ a < 1 / 2 ^ 125 then
      fin (roundTiesEven (a * (1 / 2) * 2 ^ 149) / 2 ^ 149)
    else fin (a * (1 / 2))
  | inf s => inf s
  | nan => nan

end Real32

/-! ## The marker message -/

/-- The message field `color` (`std_msgs/ColorRGBA`). -/
structure ColorRGBA where
  r : Real32
  g : Real32
  b : Real32
  a : Real32
deriving DecidableEq

/-- The fields of `animated_marker_msgs::AnimatedMarker` read by the mesh
marker. -/
structure AnimatedMarker where
  ns : String
  id : Int
  mesh_resource : String
  mesh_use_embedded_materials : Bool
  color : ColorRGBA
  animation_speed : Real32
deriving DecidableEq

/-- The key of a marker, `typedef std::pair<std::string, int32_t> MarkerID`. -/
abbrev MarkerID := String × Int

/-! ## The Ogre objects the marker touches -/

/-- The values of `Ogre::SceneBlendType`. -/
inductive SceneBlendType where
  | SBT_TRANSPARENT_ALPHA
  | SBT_TRANSPARENT_COLOUR
  | SBT_ADD
  | SBT_MODULATE
  | SBT_REPLACE
deriving DecidableEq

/-- The settings of technique 0 of a material that the marker writes. -/
structure Technique where
  lightingEnabled : Bool
  ambient : Real32 × Real32 × Real32
  diffuse : Real32 × Real32 × Real32 × Real32
  sceneBlending : SceneBlendType
  depthWriteEnabled : Bool
deriving DecidableEq

/-- An `Ogre::Material` object. -/
structure Material where
  name : String
  loaded : Bool
  receiveShadows : Bool
  technique0 : Technique
deriving DecidableEq

/-- An `Ogre::MaterialPtr`: null, or the address of a material object. -/
abbrev MaterialPtr := Option Nat

/-- What a loaded mesh contributes to an entity: the material name of each
sub-mesh, and the animations of its skeleton (`none` when the entity has no
animation state set). -/
structure Mesh where
  subMeshMaterials : List String
  animations : Option (List String)
deriving DecidableEq

/-- An `Ogre::SubEntity`: the material it renders with. -/
structure SubEntity where
  material : Nat
deriving DecidableEq

/-- An `Ogre::AnimationState`. -/
structure AnimationState where
  animationName : String
  loop : Bool
  enabled : Bool
deriving DecidableEq

/-- An `Ogre::Entity`. -/
structure Entity where
  name : String
  meshName : String
  subEntities : List SubEntity
  animationStates : Option (List AnimationState)
deriving DecidableEq

/-- The ways a call can fail to return: an exception thrown by Ogre or the
dereference of a null or dangling pointer. -/
inductive Fault where
  | duplicateItem (name : String)
  | itemNotFound (name : String)
  | nullPointer
deriving DecidableEq

/-- The state outside the marker. -/
structure World where
  /-- The material objects, by address. -/
  heap : List Material
  /-- The resource map of `Ogre::MaterialManager`: name to address. -/
  registry : List (String × Nat)
  /-- The names of the entities of the `Ogre::SceneManager`. -/
  entities : List String
  /-- The meshes `loadMeshFromResource` can load, by resource path. -/
  resources : List (String × Mesh)
  /-- The function-local `static uint32_t count` of `onNewMessage`. -/
  count : Nat
  /-- The messages written with `ROS_WARN`. -/
  log : List String
deriving DecidableEq

/-- The settings of a material fresh from `MaterialManager::create`. -/
def Material.fresh (name : String) : Material where
  name := name
  loaded := false
  receiveShadows := true
  technique0 :=
    { lightingEnabled := true
      ambient := (Real32.fin 1, Real32.fin 1, Real32.fin 1)
      diffuse := (Real32.fin 1, Real32.fin 1, Real32.fin 1, Real32.fin 1)
      sceneBlending := SceneBlendType.SBT_REPLACE
      depthWriteEnabled := true }

namespace World

/-- Apply `f` to the material object at address `h`. -/
def modifyMaterial (w : World) (h : Nat) (f : Material → Material) : World :=
  match w.heap[h]? with
  | some m => { w with heap := w.heap.set h (f m) }
  | none => w

/-- The name of the material at address `h` (`Material::getName`). -/
def materialName (w : World) (h : Nat) : String :=
  match w.heap[h]? with
  | some m => m.name
  | none => ""

/-- The call `MaterialManager::getByName`. -/
def getByName (w : World) (name : String) : MaterialPtr :=
  w.registry.lookup name

/-- The call `MaterialManager::create`: throws when the name is taken. -/
def create (w : World) (name : String) : Except Fault (World × Nat) :=
  match w.getByName name with
  | some _ => .error (.duplicateItem name)
  | none =>
    .ok ({ w with heap := w.heap ++ [Material.fresh name],
                  registry := (name, w.heap.length) :: w.registry },
         w.heap.length)

/-- The call `Material::clone`: a new registered material with the settings of
the source and the new name. -/
def clone (w : World) (src : Nat) (newName : String) : Except Fault (World × Nat) :=
  match w.heap[src]? with
  | none => .error .nullPointer
  | some m =>
    match w.getByName newName with
    | some _ => .error (.duplicateItem newName)
    | none =>
      .ok ({ w with heap := w.heap ++ [{ m with name := newName }],
                    registry := (newName, w.heap.length) :: w.registry },
           w.heap.length)

/-- The call `MaterialManager::remove(name)`. -/
def remove (w : World) (name : String) : World :=
  { w with registry := w.registry.filter (fun e => e.1 != name) }

/-- The call `Material::unload`. -/
def unload (w : World) (h : Nat) : World :=
  w.modifyMaterial h (fun m => { m with loaded := false })

/-- The call `Material::load`, made by `SubEntity::setMaterial`. -/
def load (w : World) (h : Nat) : World :=
  w.modifyMaterial h (fun m => { m with loaded := true })

/-- The lookup of `SubEntity::setMaterialName`: the material of that name, or
`BaseWhite` when there is none. -/
def resolveMaterial (w : World) (name : String) : Except Fault Nat :=
  match w.getByName name with
  | some h => .ok h
  | none =>
    match w.getByName "BaseWhite" with
    | some h => .ok h
    | none => .error (.itemNotFound "BaseWhite")

/-- The sub-entities of a new entity, one per sub-mesh, each set to the
material its sub-mesh names. -/
def buildSubEntityList : World → List String → Except Fault (World × List SubEntity)
  | w, [] => .ok (w, [])
  | w, n :: rest =>
    match w.resolveMaterial n with
    | .error e => .error e
    | .ok h =>
      match buildSubEntityList (w.load h) rest with
      | .error e => .error e
      | .ok (w1, subs) => .ok (w1, ⟨h⟩ :: subs)

/-- The call `SceneManager::createEntity(name, meshName)` for a loaded mesh:
throws when the name is taken. -/
def createEntity (w : World) (name meshName : String) (mesh : Mesh) :
    Except Fault (World × Entity) :=
  if name ∈ w.entities then .error (.duplicateItem name)
  else
    match w.buildSubEntityList mesh.subMeshMaterials with
    | .error e => .error e
    | .ok (w1, subs) =>
      .ok ({ w1 with entities := name :: w1.entities },
           { name := name
             meshName := meshName
             subEntities := subs
             animationStates :=
               mesh.animations.map (fun l => l.map (fun a => ⟨a, false, false⟩)) })

/-- The call `SceneManager::destroyEntity`. -/
def destroyEntity (w : World) (e : Entity) : World :=
  { w with entities := w.entities.filter (fun n => n != e.name) }

/-- The call `loadMeshFromResource(path)` of rviz: a null mesh when the
resource cannot be loaded.  The resource loading listener that `onNewMessage`
installs before the call is replaced by the previous one right after it, so
the listener is not part of the state. -/
def loadMeshFromResource (w : World) (path : String) : Option Mesh :=
  w.resources.lookup path

end World

/-! ## The display and the marker -/

/-- The values of `StatusProperty::Level`. -/
inductive StatusLevel where
  | Ok
  | Warn
  | Error
deriving DecidableEq

/-- The part of `MarkerDisplay` a marker writes to: the statuses set per
marker id. -/
structure MarkerDisplay where
  statuses : List (MarkerID × StatusLevel × String)
deriving DecidableEq

/-- Modelled from the spec: `MarkerDisplay::setMarkerStatus`, declared in
`marker_display.h` and defined in `marker_display.cpp`; it attaches the status
string to the marker's id, replacing the status that id had. -/
def MarkerDisplay.setMarkerStatus (d : MarkerDisplay) (id : MarkerID)
    (level : StatusLevel) (text : String) : MarkerDisplay :=
  { statuses := (id, level, text) :: d.statuses.filter (fun s => s.1 != id) }

/-- The status a display shows for a marker id. -/
def MarkerDisplay.markerStatus (d : MarkerDisplay) (id : MarkerID) :
    Option (StatusLevel × String) :=
  d.statuses.lookup id

/-- The `Ogre::SceneNode` of the marker: its visibility flag and the names of
the objects attached to it. -/
structure SceneNode where
  visible : Bool
  attached : List String
deriving DecidableEq

/-- The `MarkerSelectionHandler` of a marker: the id it is registered under and
the objects it tracks. -/
structure MarkerSelectionHandler where
  marker_id : MarkerID
  tracked : List String
deriving DecidableEq

/-- The state of a `MeshResourceMarker`.  `getID` and `getStringID` are the
results of the `MarkerBase` accessors of those names. -/
structure MeshResourceMarker where
  owner_ : Option MarkerDisplay
  getID : MarkerID
  getStringID : String
  scene_node_ : SceneNode
  handler_ : Option MarkerSelectionHandler
  entity_ : Option Entity
  materials_ : List MaterialPtr
  animationState_ : Option String
  animationSpeed_ : Real32
deriving DecidableEq

/-- The call `S_MaterialPtr::insert`: a set keeps one copy of a pointer. -/
def setInsert (p : MaterialPtr) (s : List MaterialPtr) : List MaterialPtr :=
  if p ∈ s then s else s ++ [p]

/-- The loop body of `MeshResourceMarker::reset`: unload a non-null material
and remove it from the material manager by its name. -/
def destroyMaterial (w : World) (p : MaterialPtr) : World :=
  match p with
  | some h => (w.unload h).remove (w.materialName h)
  | none => w

/-- The method `MeshResourceMarker::reset`. -/
def reset (w : World) (m : MeshResourceMarker) : World × MeshResourceMarker :=
  let r : World × MeshResourceMarker :=
    match m.entity_ with
    | some e =>
      (w.destroyEntity e,
       { m with
         entity_ := none
         scene_node_ :=
           { m.scene_node_ with
             attached := m.scene_node_.attached.filter (fun n => n != e.name) } })
    | none => (w, m)
  (m.materials_.foldl destroyMaterial r.1, { r.2 with materials_ := [] })

/-- Modelled from the spec: `MarkerBase::extractMaterials`, defined in
`marker_base.cpp`; it inserts the material of every sub-entity of the entity
into the set. -/
def extractMaterials (e : Entity) (materials : List MaterialPtr) : List MaterialPtr :=
  e.subEntities.foldl (fun acc s => setInsert (some s.material) acc) materials

/-- The method `MeshResourceMarker::getMaterials`. -/
def getMaterials (m : MeshResourceMarker) : List MaterialPtr :=
  match m.entity_ with
  | some e => extractMaterials e []
  | none => []

/-- The name `onNewMessage` gives the entity it creates, from the value of the
static counter. -/
def entityName (count : Nat) : String := "mesh_resource_marker_" ++ toString count

/-- The animation set-up loop of `onNewMessage`: every animation state whose
name is `nameOfAnimationState`, or every state when that name is empty, is
made the marker's animation state, set to loop and enabled. -/
def setUpAnimation (nameOfAnimationState : String) (states : List AnimationState)
    (animationState_ : Option String) : List AnimationState × Option String :=
  states.foldl
    (fun acc s =>
      if s.animationName = nameOfAnimationState ∨ nameOfAnimationState = "" then
        (acc.1 ++ [{ s with loop := true, enabled := true }], some s.animationName)
      else (acc.1 ++ [s], acc.2))
    ([], animationState_)

/-- The loop of `onNewMessage` that clones the embedded materials: every
material of the set that is not named `BaseWhiteNoLighting` is cloned under
the name `id + name`, and the clone is inserted into `materials_`. -/
def cloneEmbedded (id : String) :
    World → List MaterialPtr → List MaterialPtr → Except Fault (World × List MaterialPtr)
  | w, materials_, [] => .ok (w, materials_)
  | _, _, none :: _ => .error .nullPointer
  | w, materials_, some h :: rest =>
    match w.heap[h]? with
    | none => .error .nullPointer
    | some mat =>
      if mat.name ≠ "BaseWhiteNoLighting" then
        match w.clone h (id ++ mat.name) with
        | .error e => .error e
        | .ok (w1, new_material) =>
          cloneEmbedded id w1 (setInsert (some new_material) materials_) rest
      else cloneEmbedded id w materials_ rest

/-- The loop of `onNewMessage` that makes the sub-entities use the cloned
materials: a sub-entity whose material is not named `BaseWhiteNoLighting` is
set to the material named `id + mat_name`, any other to the default
material. -/
def useClonedMaterials (id : String) (default_material : Nat) :
    World → List SubEntity → Except Fault (World × List SubEntity)
  | w, [] => .ok (w, [])
  | w, s :: rest =>
    let mat_name := w.materialName s.material
    let target : Except Fault Nat :=
      if mat_name ≠ "BaseWhiteNoLighting" then w.resolveMaterial (id ++ mat_name)
      else .ok default_material
    match target with
    | .error e => .error e
    | .ok h =>
      match useClonedMaterials id default_material (w.load h) rest with
      | .error e => .error e
      | .ok (w1, subs) => .ok (w1, ⟨h⟩ :: subs)

/-- The part of `onNewMessage` that runs once the mesh has loaded: create the
entity, attach it, set up the animation, create the default material, set the
materials of the sub-entities and create the selection handler. -/
def buildEntity (w : World) (m : MeshResourceMarker) (new_message : AnimatedMarker)
    (mesh : Mesh) : Except Fault (World × MeshResourceMarker) :=
  let id := entityName w.count
  let w0 : World := { w with count := (w.count + 1) % 2 ^ 32 }
  match w0.createEntity id new_message.mesh_resource mesh with
  | .error e => .error e
  | .ok (w1, created) =>
    let scene_node_ : SceneNode :=
      { m.scene_node_ with attached := id :: m.scene_node_.attached }
    let anim : Option (List AnimationState) × Option String :=
      match created.animationStates with
      | none => (none, m.animationState_)
      | some states =>
        let r := setUpAnimation "" states m.animationState_
        (some r.1, r.2)
    let entity : Entity := { created with animationStates := anim.1 }
    match w1.create (id ++ "Material") with
    | .error e => .error e
    | .ok (w2, default_material) =>
      let w3 := w2.modifyMaterial default_material (fun mat =>
        { mat with
          receiveShadows := false
          technique0 :=
            { mat.technique0 with
              lightingEnabled := true
              ambient := (Real32.fin (1 / 2), Real32.fin (1 / 2), Real32.fin (1 / 2)) } })
      let materials_ := setInsert (some default_material) m.materials_
      let handler_ : MarkerSelectionHandler :=
        { marker_id := (new_message.ns, new_message.id), tracked := [id] }
      if new_message.mesh_use_embedded_materials then
        let materials := getMaterials { m with entity_ := some entity }
        match cloneEmbedded id w3 materials_ materials with
        | .error e => .error e
        | .ok (w4, materials_) =>
          match useClonedMaterials id default_material w4 entity.subEntities with
          | .error e => .error e
          | .ok (w5, subs) =>
            .ok (w5,
              { m with
                scene_node_ := scene_node_
                entity_ := some { entity with subEntities := subs }
                animationState_ := anim.2
                materials_ := materials_
                handler_ := some handler_ })
      else
        let w4 := entity.subEntities.foldl (fun acc _ => acc.load default_material) w3
        .ok (w4,
          { m with
            scene_node_ := scene_node_
            entity_ :=
              some { entity with
                     subEntities := entity.subEntities.map (fun _ => ⟨default_material⟩) }
            animationState_ := anim.2
            materials_ := materials_
            handler_ := some handler_ })

/-- The colour `onNewMessage` applies: the message colour, or full white
when embedded materials are used and r, g, b and a are all 0. -/
def effectiveColor (new_message : AnimatedMarker) : ColorRGBA :=
  let c := new_message.color
  if new_message.mesh_use_embedded_materials ∧ c.r.eq (.fin 0) ∧ c.g.eq (.fin 0)
      ∧ c.b.eq (.fin 0) ∧ c.a.eq (.fin 0) then
    ⟨.fin 1, .fin 1, .fin 1, .fin 1⟩
  else c

/-- The five setter calls `onNewMessage` makes on technique 0 of a material.
The test `a < 0.9998` compares with the double nearest to 0.9998, which no
`float` lies strictly between, so it is the test against 9998/10000. -/
def colorTechnique (c : ColorRGBA) (t : Technique) : Technique :=
  let transparent := c.a.ltConst (9998 / 10000)
  { t with
    ambient := (c.r.half, c.g.half, c.b.half)
    diffuse := (c.r, c.g, c.b, c.a)
    sceneBlending :=
      if transparent then SceneBlendType.SBT_TRANSPARENT_ALPHA
      else SceneBlendType.SBT_REPLACE
    depthWriteEnabled := !transparent
    lightingEnabled := true }

/-- The loop of `onNewMessage` over `materials_` that colours each
material. -/
def applyColor (c : ColorRGBA) : World → List MaterialPtr → Except Fault World
  | w, [] => .ok w
  | _, none :: _ => .error .nullPointer
  | w, some h :: rest =>
    match w.heap[h]? with
    | none => .error .nullPointer
    | some _ =>
      applyColor c
        (w.modifyMaterial h (fun mat =>
          { mat with technique0 := colorTechnique c mat.technique0 }))
        rest

/-- The first test of `onNewMessage`: no entity, or a changed mesh resource or
embedded-materials flag.  The old message is read only when there is an
entity. -/
def needsRebuild (m : MeshResourceMarker) (old_message : Option AnimatedMarker)
    (new_message : AnimatedMarker) : Except Fault Bool :=
  match m.entity_ with
  | none => .ok true
  | some _ =>
    match old_message with
    | none => .error .nullPointer
    | some o =>
      .ok (decide (o.mesh_resource ≠ new_message.mesh_resource) ||
           decide (o.mesh_use_embedded_materials ≠ new_message.mesh_use_embedded_materials))

/-- The colour comparison of `onNewMessage`, made when `need_color` is
false. -/
def colorChanged (old_message : Option AnimatedMarker) (new_message : AnimatedMarker) :
    Except Fault Bool :=
  match old_message with
  | none => .error .nullPointer
  | some o =>
    .ok (o.color.r.ne new_message.color.r || o.color.g.ne new_message.color.g ||
         o.color.b.ne new_message.color.b || o.color.a.ne new_message.color.a)

/-- The text of the load-failure status. -/
def loadFailureText (m : MeshResourceMarker) (new_message : AnimatedMarker) : String :=
  "Mesh resource marker [" ++ m.getStringID ++ "] could not load [" ++
    new_message.mesh_resource ++ "]"

/-- The call `scene_node_->setVisible(v)`. -/
def MeshResourceMarker.setVisible (m : MeshResourceMarker) (v : Bool) : MeshResourceMarker :=
  { m with scene_node_ := { m.scene_node_ with visible := v } }

/-- The end of `onNewMessage`: the animation speed is taken from the message
and the scene node is made visible again.  (The pose and scale written to the
scene node are not part of the state modelled here.) -/
def finish (m : MeshResourceMarker) (new_message : AnimatedMarker) : MeshResourceMarker :=
  { m with animationSpeed_ := new_message.animation_speed }.setVisible true

/-- The branch of `onNewMessage` taken when the first test holds: `reset`,
return on an empty resource, report a failed load and return, or else build
the entity, colour its materials (`need_color` is true) and finish. -/
def rebuild (w : World) (m : MeshResourceMarker) (new_message : AnimatedMarker) :
    Except Fault (World × MeshResourceMarker) :=
  let r := reset w m
  if new_message.mesh_resource = "" then .ok r
  else
    match r.1.loadMeshFromResource new_message.mesh_resource with
    | none =>
      let text := loadFailureText r.2 new_message
      .ok ({ r.1 with log := r.1.log ++ [text] },
           { r.2 with
             owner_ := r.2.owner_.map
               (fun d => d.setMarkerStatus r.2.getID StatusLevel.Error text) })
    | some mesh =>
      match buildEntity r.1 r.2 new_message mesh with
      | .error e => .error e
      | .ok (w2, m2) =>
        match applyColor (effectiveColor new_message) w2 m2.materials_ with
        | .error e => .error e
        | .ok w3 => .ok (w3, finish m2 new_message)

/-- The branch of `onNewMessage` taken when the first test fails: the
materials are coloured when a colour component changed. -/
def recolor (w : World) (m : MeshResourceMarker) (old_message : Option AnimatedMarker)
    (new_message : AnimatedMarker) : Except Fault (World × MeshResourceMarker) :=
  match colorChanged old_message new_message with
  | .error e => .error e
  | .ok true =>
    match applyColor (effectiveColor new_message) w m.materials_ with
    | .error e => .error e
    | .ok w3 => .ok (w3, finish m new_message)
  | .ok false => .ok (w, finish m new_message)

/-- The method `MeshResourceMarker::onNewMessage`.  (The assertion on the
message type is an obligation of the caller and does not change the state.) -/
def onNewMessage (w : World) (m : MeshResourceMarker) (old_message : Option AnimatedMarker)
    (new_message : AnimatedMarker) : Except Fault (World × MeshResourceMarker) :=
  let m0 := m.setVisible false
  match needsRebuild m0 old_message new_message with
  | .error e => .error e
  | .ok true => rebuild w m0 new_message
  | .ok false => recolor w m0 old_message new_message

/-- The guard of the colour block of `onNewMessage`,
`need_color || old colour != new colour`: `need_color` is set when the mesh
was loaded for a rebuild, and the colours are compared otherwise. -/
def appliesColor (w : World) (m : MeshResourceMarker) (old_message : Option AnimatedMarker)
    (new_message : AnimatedMarker) : Bool :=
  match needsRebuild m old_message new_message with
  | .error _ => false
  | .ok true =>
    decide (new_message.mesh_resource ≠ "") &&
      (w.loadMeshFromResource new_message.mesh_resource).isSome
  | .ok false =>
    match colorChanged old_message new_message with
    | .error _ => false
    | .ok b => b

/-- A material with its load state forgotten. -/
def Material.unloaded (m : Material) : Material := { m with loaded := false }

/-- Two worlds that differ at most in the load state of their materials. -/
def World.LoadedOnly (w w' : World) : Prop :=
  w'.heap.map Material.unloaded = w.heap.map Material.unloaded ∧
  w'.registry = w.registry ∧ w'.entities = w.entities ∧ w'.resources = w.resources ∧
  w'.count = w.count ∧ w'.log = w.log

/-- The material manager holds live materials only: every address in the
registry is the address of a material object. -/
def World.RegistryLive (w : World) : Prop :=
  ∀ e ∈ w.registry, e.2 < w.heap.length

instance World.decidableRegistryLive (w : World) : Decidable w.RegistryLive := by
  unfold World.RegistryLive
  infer_instance

/-- The material manager keeps every material under the material's own name:
every entry of the registry is the address of a material object of that
name. -/
def World.RegistryNamed (w : World) : Prop :=
  ∀ e ∈ w.registry, (w.heap[e.2]?).map Material.name = some e.1

instance World.decidableRegistryNamed (w : World) : Decidable w.RegistryNamed := by
  unfold World.RegistryNamed
  infer_instance

/-- The default material of a marker once `onNewMessage` has created it and
made its three setter calls: shadows off, lighting on, ambient (0.5,0.5,0.5);
the other settings are those of a new material. -/
def defaultMaterial (name : String) : Material where
  name := name
  loaded := false
  receiveShadows := false
  technique0 :=
    { lightingEnabled := true
      ambient := (Real32.fin (1 / 2), Real32.fin (1 / 2), Real32.fin (1 / 2))
      diffuse := (Real32.fin 1, Real32.fin 1, Real32.fin 1, Real32.fin 1)
      sceneBlending := SceneBlendType.SBT_REPLACE
      depthWriteEnabled := true }

/-- The world once the default material named `name` is created in it. -/
def World.withDefaultMaterial (w : World) (name : String) : World :=
  { w with heap := w.heap ++ [defaultMaterial name],
           registry := (name, w.heap.length) :: w.registry }

/-- A world with the two materials Ogre always has, one material `Wood`, and
one loadable mesh with three sub-meshes and one animation. -/
def sampleWorld : World where
  heap := [Material.fresh "BaseWhite", Material.fresh "BaseWhiteNoLighting",
    Material.fresh "Wood"]
  registry := [("BaseWhite", 0), ("BaseWhiteNoLighting", 1), ("Wood", 2)]
  entities := []
  resources :=
    [("package://demo/robot.dae",
      { subMeshMaterials := ["Wood", "BaseWhiteNoLighting", "Wood"]
        animations := some ["walk"] })]
  count := 7
  log := []

/-- A marker that has not built anything yet, owned by a display without
statuses. -/
def sampleMarker : MeshResourceMarker where
  owner_ := some { statuses := [] }
  getID := ("demo", 3)
  getStringID := "demo/3"
  scene_node_ := { visible := true, attached := [] }
  handler_ := none
  entity_ := none
  materials_ := []
  animationState_ := none
  animationSpeed_ := Real32.fin 1

/-- A message of the marker ("demo", 3). -/
def sampleMessage (mesh_resource : String) (embedded : Bool) (color : ColorRGBA) :
    AnimatedMarker where
  ns := "demo"
  id := 3
  mesh_resource := mesh_resource
  mesh_use_embedded_materials := embedded
  color := color
  animation_speed := Real32.fin 2

/-- The result of a call that returns, and the state it started from when it
does not. -/
def resultOr (start : World × MeshResourceMarker)
    (r : Except Fault (World × MeshResourceMarker)) : World × MeshResourceMarker :=
  match r with
  | .ok v => v
  | .error _ => start

/-- The sample marker after a message with the loadable mesh, without embedded
materials, half transparent black. -/
def samplePlain : World × MeshResourceMarker :=
  resultOr (sampleWorld, sampleMarker)
    (onNewMessage sampleWorld sampleMarker none
      (sampleMessage "package://demo/robot.dae" false
        ⟨Real32.fin 0, Real32.fin 0, Real32.fin 0, Real32.fin (1 / 2)⟩))

/-- The sample marker after a message with the loadable mesh, with embedded
materials and the colour left at 0. -/
def sampleEmbedded : World × MeshResourceMarker :=
  resultOr (sampleWorld, sampleMarker)
    (onNewMessage sampleWorld sampleMarker none
      (sampleMessage "package://demo/robot.dae" true
        ⟨Real32.fin 0, Real32.fin 0, Real32.fin 0, Real32.fin 0⟩))

/-- The marker of `samplePlain` after a second message, for the same mesh but
with embedded materials and the colour left at 0. -/
def sampleSwapped : World × MeshResourceMarker :=
  resultOr samplePlain
    (onNewMessage samplePlain.1 samplePlain.2
      (some (sampleMessage "package://demo/robot.dae" false
        ⟨Real32.fin 0, Real32.fin 0, Real32.fin 0, Real32.fin (1 / 2)⟩))
      (sampleMessage "package://demo/robot.dae" true
        ⟨Real32.fin 0, Real32.fin 0, Real32.fin 0, Real32.fin 0⟩))

/-- The sample marker after a message with the loadable mesh, with embedded
materials and red the least positive float. -/
def sampleFaintRed : World × MeshResourceMarker :=
  resultOr (sampleWorld, sampleMarker)
    (onNewMessage sampleWorld sampleMarker none
      (sampleMessage "package://demo/robot.dae" true
        ⟨Real32.fin (1 / 2 ^ 149), Real32.fin 0, Real32.fin 0, Real32.fin 1⟩))

/-- The sample marker after a message with the loadable mesh, without embedded
materials and green three times the least positive float. -/
def sampleFaintGreen : World × MeshResourceMarker :=
  resultOr (sampleWorld, sampleMarker)
    (onNewMessage sampleWorld sampleMarker none
      (sampleMessage "package://demo/robot.dae" false
        ⟨Real32.fin 0, Real32.fin (3 / 2 ^ 149), Real32.fin 0, Real32.fin 1⟩))

/-! ## The marker table of the display -/

/-- The table `markers_` of `MarkerDisplay`,
`typedef std::map<MarkerID, MarkerBasePtr> M_IDToMarker`, as the list of its
entries. -/
abbrev M_IDToMarker (α : Type) := List (MarkerID × α)

/-- Modelled from the spec: the code of `marker_display.cpp` that stores a
marker in `markers_` is not part of the sources; "keyed by (namespace, id)
pair, one active marker per key" is modelled as the store that drops the entry
the key had and adds the new one. -/
def storeMarker {α : Type} (markers_ : M_IDToMarker α) (id : MarkerID) (marker : α) :
    M_IDToMarker α :=
  (id, marker) :: markers_.filter (fun e => e.1 != id)

/-- Modelled from the spec: `MarkerDisplay::deleteMarker(MarkerID)`, declared
in `marker_display.h`, as the erasure of the key from `markers_`. -/
def deleteMarker {α : Type} (markers_ : M_IDToMarker α) (id : MarkerID) : M_IDToMarker α :=
  markers_.filter (fun e => e.1 != id)

/-- An operation on the marker table. -/
inductive TableOp (α : Type) where
  | store (id : MarkerID) (marker : α)
  | delete (id : MarkerID)

/-- The effect of one operation on the marker table. -/
def TableOp.apply {α : Type} (markers_ : M_IDToMarker α) : TableOp α → M_IDToMarker α
  | .store id marker => storeMarker markers_ id marker
  | .delete id => deleteMarker markers_ id

/-- The marker table after a sequence of operations on the empty table of a
new display. -/
def runTable {α : Type} (ops : List (TableOp α)) : M_IDToMarker α :=
  ops.foldl TableOp.apply []

/-! ## Material heap and registry lemmas -/

theorem World.heap_modifyMaterial (w : World) (h h' : Nat) (f : Material → Material) :
    (w.modifyMaterial h' f).heap[h]? =
      (w.heap[h]?).map (fun mat => if h = h' then f mat else mat) := by
  unfold World.modifyMaterial
  cases hm : w.heap[h']? with
  | none =>
    by_cases hh : h = h'
    · subst hh; simp [hm]
    · simp [hh]
  | some m =>
    by_cases hh : h = h'
    · subst hh
      have hlt : h < w.heap.length := (List.getElem?_eq_some.mp hm).1
      simp [List.getElem?_set, hlt, hm]
    · have hne : h' ≠ h := fun e => hh e.symm
      simp [List.getElem?_set_ne hne, hh]

theorem World.length_modifyMaterial (w : World) (h : Nat) (f : Material → Material) :
    (w.modifyMaterial h f).heap.length = w.heap.length := by
  unfold World.modifyMaterial
  cases w.heap[h]? <;> simp

theorem World.registry_modifyMaterial (w : World) (h : Nat) (f : Material → Material) :
    (w.modifyMaterial h f).registry = w.registry := by
  unfold World.modifyMaterial
  cases w.heap[h]? <;> rfl

theorem World.entities_modifyMaterial (w : World) (h : Nat) (f : Material → Material) :
    (w.modifyMaterial h f).entities = w.entities := by
  unfold World.modifyMaterial
  cases w.heap[h]? <;> rfl

theorem lookup_filter_ne {β : Type} (l : List (String × β)) (n : String) :
    (l.filter (fun e => e.1 != n)).lookup n = none := by
  induction l with
  | nil => rfl
  | cons e es ih =>
    obtain ⟨k, v⟩ := e
    by_cases hk : k = n
    · have hf : List.filter (fun e : String × β => e.1 != n) ((k, v) :: es) =
          List.filter (fun e : String × β => e.1 != n) es := by
        simp [List.filter_cons, hk]
      rw [hf]
      exact ih
    · have hnk : (n == k) = false := by simpa using fun e => hk e.symm
      have hf : List.filter (fun e : String × β => e.1 != n) ((k, v) :: es) =
          (k, v) :: List.filter (fun e : String × β => e.1 != n) es := by
        simp [List.filter_cons, hk]
      rw [hf, List.lookup_cons, hnk]
      exact ih

theorem lookup_filter_none {β : Type} (l : List (String × β)) (p : String × β → Bool)
    (n : String) (hn : l.lookup n = none) : (l.filter p).lookup n = none := by
  induction l with
  | nil => rfl
  | cons e es ih =>
    obtain ⟨k, v⟩ := e
    rw [List.lookup_cons] at hn
    cases hnk : (n == k) with
    | true => rw [hnk] at hn; exact absurd hn (by simp)
    | false =>
      rw [hnk] at hn
      cases hp : p (k, v) with
      | true =>
        rw [List.filter_cons_of_pos hp, List.lookup_cons, hnk]
        exact ih hn
      | false =>
        rw [List.filter_cons_of_neg (by simp [hp])]
        exact ih hn

/-! ## Lemmas on `reset` -/

theorem heap_destroyMaterial (w : World) (p : MaterialPtr) (h : Nat) :
    (destroyMaterial w p).heap[h]? =
      (w.heap[h]?).map (fun mat => if p = some h then { mat with loaded := false } else mat) := by
  cases p with
  | none => simp [destroyMaterial]
  | some h' =>
    simp only [destroyMaterial, World.remove, World.unload, World.heap_modifyMaterial]
    by_cases hh : h = h'
    · subst hh; simp
    · have : ¬ h' = h := fun e => hh e.symm
      simp [hh, this]

theorem entities_destroyMaterial (w : World) (p : MaterialPtr) :
    (destroyMaterial w p).entities = w.entities := by
  cases p with
  | none => rfl
  | some h => simp [destroyMaterial, World.remove, World.unload, World.entities_modifyMaterial]

theorem getByName_destroyMaterial_none (w : World) (p : MaterialPtr) (n : String)
    (hn : w.getByName n = none) : (destroyMaterial w p).getByName n = none := by
  cases p with
  | none => simpa [destroyMaterial] using hn
  | some h =>
    simp only [destroyMaterial, World.remove, World.unload, World.getByName,
      World.registry_modifyMaterial]
    exact lookup_filter_none _ _ _ hn

theorem getByName_destroyMaterial_self (w : World) (h : Nat) (mat : Material)
    (hm : w.heap[h]? = some mat) : (destroyMaterial w (some h)).getByName mat.name = none := by
  simp only [destroyMaterial, World.remove, World.unload, World.getByName,
    World.registry_modifyMaterial, World.materialName, hm]
  exact lookup_filter_ne _ _

theorem entities_foldl_destroyMaterial (ps : List MaterialPtr) (w : World) :
    (ps.foldl destroyMaterial w).entities = w.entities := by
  induction ps generalizing w with
  | nil => rfl
  | cons p ps ih => simp [List.foldl, ih, entities_destroyMaterial]

theorem getByName_foldl_destroyMaterial_none (ps : List MaterialPtr) (w : World) (n : String)
    (hn : w.getByName n = none) : (ps.foldl destroyMaterial w).getByName n = none := by
  induction ps generalizing w with
  | nil => exact hn
  | cons p ps ih => exact ih _ (getByName_destroyMaterial_none w p n hn)

theorem heap_foldl_destroyMaterial (ps : List MaterialPtr) (w : World) (h : Nat) :
    (ps.foldl destroyMaterial w).heap[h]? =
      (w.heap[h]?).map (fun mat => if some h ∈ ps then { mat with loaded := false } else mat) := by
  induction ps generalizing w with
  | nil => simp
  | cons p ps ih =>
    simp only [List.foldl, ih, heap_destroyMaterial]
    cases w.heap[h]? with
    | none => rfl
    | some mat =>
      by_cases hp : p = some h
      · subst hp
        by_cases hps : some h ∈ ps <;> simp [hps]
      · have hp' : ¬ some h = p := fun e => hp e.symm
        by_cases hps : some h ∈ ps <;> simp [hp, hp', hps]

theorem getByName_foldl_destroyMaterial_mem (ps : List MaterialPtr) (w : World) (h : Nat)
    (mat : Material) (hmem : some h ∈ ps) (hm : w.heap[h]? = some mat) :
    (ps.foldl destroyMaterial w).getByName mat.name = none := by
  induction ps generalizing w mat with
  | nil => simp at hmem
  | cons p ps ih =>
    simp only [List.foldl]
    by_cases hp : p = some h
    · subst hp
      exact getByName_foldl_destroyMaterial_none _ _ _ (getByName_destroyMaterial_self w h mat hm)
    · have hps : some h ∈ ps := by
        rcases List.mem_cons.mp hmem with e | e
        · exact absurd e.symm hp
        · exact e
      have h1 : (destroyMaterial w p).heap[h]? = some mat := by
        rw [heap_destroyMaterial, hm]; simp [hp]
      exact ih (destroyMaterial w p) mat hps h1

theorem frame_destroyMaterial (w : World) (p : MaterialPtr) :
    (destroyMaterial w p).resources = w.resources ∧ (destroyMaterial w p).count = w.count ∧
    (destroyMaterial w p).log = w.log ∧ (destroyMaterial w p).heap.length = w.heap.length := by
  cases p with
  | none => simp [destroyMaterial]
  | some h =>
    simp only [destroyMaterial, World.remove, World.unload, World.modifyMaterial]
    cases w.heap[h]? <;> simp

theorem frame_foldl_destroyMaterial (ps : List MaterialPtr) (w : World) :
    (ps.foldl destroyMaterial w).resources = w.resources ∧
    (ps.foldl destroyMaterial w).count = w.count ∧
    (ps.foldl destroyMaterial w).log = w.log ∧
    (ps.foldl destroyMaterial w).heap.length = w.heap.length := by
  induction ps generalizing w with
  | nil => simp
  | cons p ps ih =>
    obtain ⟨h1, h2, h3, h4⟩ := frame_destroyMaterial w p
    obtain ⟨i1, i2, i3, i4⟩ := ih (destroyMaterial w p)
    simp only [List.foldl]
    exact ⟨i1.trans h1, i2.trans h2, i3.trans h3, i4.trans h4⟩

theorem reset_frame (w : World) (m : MeshResourceMarker) :
    (reset w m).1.resources = w.resources ∧ (reset w m).1.count = w.count ∧
    (reset w m).1.log = w.log ∧ (reset w m).1.heap.length = w.heap.length ∧
    (reset w m).2.owner_ = m.owner_ ∧ (reset w m).2.getID = m.getID ∧
    (reset w m).2.getStringID = m.getStringID ∧ (reset w m).2.handler_ = m.handler_ := by
  unfold reset
  cases he : m.entity_ <;>
    simp [frame_foldl_destroyMaterial, World.destroyEntity]

/-! ## C7: `reset` -/

theorem reset_entity (w : World) (m : MeshResourceMarker) : (reset w m).2.entity_ = none := by
  unfold reset
  cases he : m.entity_ <;> simp [he]

theorem reset_materials (w : World) (m : MeshResourceMarker) :
    (reset w m).2.materials_ = [] := by
  unfold reset
  cases he : m.entity_ <;> simp

theorem reset_heap (w : World) (m : MeshResourceMarker) (h : Nat) :
    (reset w m).1.heap[h]? =
      (w.heap[h]?).map
        (fun mat => if some h ∈ m.materials_ then { mat with loaded := false } else mat) := by
  unfold reset
  cases m.entity_ <;> simp [heap_foldl_destroyMaterial, World.destroyEntity]

theorem reset_entities (w : World) (m : MeshResourceMarker) :
    (reset w m).1.entities =
      match m.entity_ with
      | some e => w.entities.filter (fun n => n != e.name)
      | none => w.entities := by
  unfold reset
  cases m.entity_ <;> simp [entities_foldl_destroyMaterial, World.destroyEntity]

/-- C7: `reset` leaves the marker without entity and with an empty
`materials_`; the entity it had is gone from the scene manager; every material
object that a non-null pointer of `materials_` pointed to is unloaded and no
material is registered under its name any more; a second `reset` changes
nothing. -/
theorem reset_destroys_entity_and_materials (w : World) (m : MeshResourceMarker) :
    (reset w m).2.entity_ = none ∧
    (∀ e, m.entity_ = some e → e.name ∉ (reset w m).1.entities) ∧
    (∀ h mat, some h ∈ m.materials_ → w.heap[h]? = some mat →
      (reset w m).1.heap[h]? = some { mat with loaded := false } ∧
      (reset w m).1.getByName mat.name = none) ∧
    (reset w m).2.materials_ = [] ∧
    reset (reset w m).1 (reset w m).2 = reset w m := by
  refine ⟨reset_entity w m, ?_, ?_, reset_materials w m, ?_⟩
  · intro e he
    rw [reset_entities, he]
    simp
  · intro h mat hmem hm
    constructor
    · rw [reset_heap, hm]; simp [hmem]
    · unfold reset
      cases m.entity_ with
      | none => exact getByName_foldl_destroyMaterial_mem _ _ h mat hmem hm
      | some e => exact getByName_foldl_destroyMaterial_mem _ _ h mat hmem hm
  · have h1 := reset_entity w m
    have h2 := reset_materials w m
    generalize reset w m = r at h1 h2
    obtain ⟨w1, m1⟩ := r
    simp only at h1 h2
    simp [reset, h1, h2]
    cases m1
    simp_all

/-! ## C1: a failed load -/

theorem needsRebuild_setVisible (m : MeshResourceMarker) (v : Bool)
    (old_message : Option AnimatedMarker) (new_message : AnimatedMarker) :
    needsRebuild (m.setVisible v) old_message new_message =
      needsRebuild m old_message new_message := rfl

theorem needsRebuild_of_claim (m : MeshResourceMarker) (old_message : Option AnimatedMarker)
    (new_message : AnimatedMarker)
    (h : m.entity_ = none ∨ ∃ o, old_message = some o ∧
      (o.mesh_resource ≠ new_message.mesh_resource ∨
       o.mesh_use_embedded_materials ≠ new_message.mesh_use_embedded_materials)) :
    needsRebuild m old_message new_message = .ok true := by
  unfold needsRebuild
  cases he : m.entity_ with
  | none => rfl
  | some e =>
    rcases h with h | ⟨o, ho, hc⟩
    · rw [he] at h; exact absurd h (by simp)
    · subst ho
      rcases hc with hc | hc <;> simp [hc]

/-- C1: when `onNewMessage` has to load the mesh (the marker has no entity, or
the mesh resource or the embedded-materials flag differs from the old message),
the new resource is not empty and `loadMeshFromResource` returns a null mesh,
the call returns normally; the marker then has no entity and an empty
`materials_`, no entity and no material object was created, the owning display
is the display it had with `setMarkerStatus(getID(), Error, text)` applied, so
that it shows the Error status with the text
"Mesh resource marker [<string id>] could not load [<mesh_resource>]" under
the marker's id, and the text is logged as a warning. -/
theorem onNewMessage_load_failure_reported (w : World) (m : MeshResourceMarker)
    (old_message : Option AnimatedMarker) (new_message : AnimatedMarker)
    (hload : m.entity_ = none ∨ ∃ o, old_message = some o ∧
      (o.mesh_resource ≠ new_message.mesh_resource ∨
       o.mesh_use_embedded_materials ≠ new_message.mesh_use_embedded_materials))
    (hres : new_message.mesh_resource ≠ "")
    (hfail : w.loadMeshFromResource new_message.mesh_resource = none) :
    ∃ w' m', onNewMessage w m old_message new_message = .ok (w', m') ∧
      m'.entity_ = none ∧ m'.materials_ = [] ∧
      w'.heap.length = w.heap.length ∧ (∀ n, n ∈ w'.entities → n ∈ w.entities) ∧
      m'.owner_ = m.owner_.map (fun d => d.setMarkerStatus m.getID StatusLevel.Error
        ("Mesh resource marker [" ++ m.getStringID ++ "] could not load [" ++
          new_message.mesh_resource ++ "]")) ∧
      (∀ d, m.owner_ = some d → ∃ d', m'.owner_ = some d' ∧
        d'.markerStatus m.getID = some (StatusLevel.Error,
          "Mesh resource marker [" ++ m.getStringID ++ "] could not load [" ++
            new_message.mesh_resource ++ "]")) ∧
      w'.log = w.log ++ ["Mesh resource marker [" ++ m.getStringID ++ "] could not load [" ++
        new_message.mesh_resource ++ "]"] := by
  have hnr := needsRebuild_of_claim m old_message new_message hload
  obtain ⟨f1, f2, f3, f4, f5, f6, f7, f8⟩ := reset_frame w (m.setVisible false)
  have hfail' : (reset w (m.setVisible false)).1.loadMeshFromResource
      new_message.mesh_resource = none := by
    simpa [World.loadMeshFromResource, f1] using hfail
  have hown : (reset w (m.setVisible false)).2.owner_.map
        (fun d => d.setMarkerStatus (reset w (m.setVisible false)).2.getID StatusLevel.Error
          (loadFailureText (reset w (m.setVisible false)).2 new_message)) =
      m.owner_.map (fun d => d.setMarkerStatus m.getID StatusLevel.Error
        ("Mesh resource marker [" ++ m.getStringID ++ "] could not load [" ++
          new_message.mesh_resource ++ "]")) := by
    have f5' : (reset w (m.setVisible false)).2.owner_ = m.owner_ := f5
    have f6' : (reset w (m.setVisible false)).2.getID = m.getID := f6
    have f7' : (reset w (m.setVisible false)).2.getStringID = m.getStringID := f7
    rw [f5', f6']
    simp only [loadFailureText, f7']
  have key : onNewMessage w m old_message new_message =
      .ok ({ (reset w (m.setVisible false)).1 with
             log := (reset w (m.setVisible false)).1.log ++
               [loadFailureText (reset w (m.setVisible false)).2 new_message] },
           { (reset w (m.setVisible false)).2 with
             owner_ := (reset w (m.setVisible false)).2.owner_.map
               (fun d => d.setMarkerStatus (reset w (m.setVisible false)).2.getID
                 StatusLevel.Error
                 (loadFailureText (reset w (m.setVisible false)).2 new_message)) }) := by
    simp only [onNewMessage, needsRebuild_setVisible, hnr, rebuild, if_neg hres, hfail']
  refine ⟨{ (reset w (m.setVisible false)).1 with
             log := (reset w (m.setVisible false)).1.log ++
               [loadFailureText (reset w (m.setVisible false)).2 new_message] },
           { (reset w (m.setVisible false)).2 with
             owner_ := (reset w (m.setVisible false)).2.owner_.map
               (fun d => d.setMarkerStatus (reset w (m.setVisible false)).2.getID
                 StatusLevel.Error
                 (loadFailureText (reset w (m.setVisible false)).2 new_message)) },
           key, ?_, ?_, ?_, ?_, ?_, ?_, ?_⟩
  · exact reset_entity w (m.setVisible false)
  · exact reset_materials w (m.setVisible false)
  · exact f4
  · intro n hn
    have hn' : n ∈ (reset w (m.setVisible false)).1.entities := hn
    rw [reset_entities] at hn'
    cases he : (m.setVisible false).entity_ with
    | none => simpa [he] using hn'
    | some e =>
      rw [he] at hn'
      exact (List.mem_filter.mp hn').1
  · exact hown
  · intro d hd
    refine ⟨d.setMarkerStatus m.getID StatusLevel.Error
      ("Mesh resource marker [" ++ m.getStringID ++ "] could not load [" ++
        new_message.mesh_resource ++ "]"), ?_, ?_⟩
    · show Option.map _ _ = _
      rw [hown, hd]
      rfl
    · simp [MarkerDisplay.markerStatus, MarkerDisplay.setMarkerStatus]
  · show (reset w (m.setVisible false)).1.log ++ _ = _
    have f7' : (reset w (m.setVisible false)).2.getStringID = m.getStringID := f7
    rw [f3]
    simp only [loadFailureText, f7']

/-! ## The branches of `onNewMessage` -/

theorem onNewMessage_cases {w : World} {m : MeshResourceMarker}
    {old_message : Option AnimatedMarker} {new_message : AnimatedMarker}
    {w' : World} {m' : MeshResourceMarker}
    (hok : onNewMessage w m old_message new_message = .ok (w', m')) :
    (needsRebuild m old_message new_message = .ok true ∧
      rebuild w (m.setVisible false) new_message = .ok (w', m')) ∨
    (needsRebuild m old_message new_message = .ok false ∧
      recolor w (m.setVisible false) old_message new_message = .ok (w', m')) := by
  simp only [onNewMessage, needsRebuild_setVisible] at hok
  cases hn : needsRebuild m old_message new_message with
  | error e => rw [hn] at hok; cases hok
  | ok b =>
    rw [hn] at hok
    cases b with
    | true => exact Or.inl ⟨rfl, hok⟩
    | false => exact Or.inr ⟨rfl, hok⟩

theorem rebuild_cases {w : World} {m : MeshResourceMarker} {new_message : AnimatedMarker}
    {w' : World} {m' : MeshResourceMarker}
    (hok : rebuild w m new_message = .ok (w', m')) :
    (new_message.mesh_resource = "" ∧ (w', m') = reset w m) ∨
    (new_message.mesh_resource ≠ "" ∧
      (reset w m).1.loadMeshFromResource new_message.mesh_resource = none ∧
      m'.entity_ = none ∧ m'.materials_ = [] ∧ w'.heap = (reset w m).1.heap ∧
      w'.registry = (reset w m).1.registry ∧ w'.entities = (reset w m).1.entities ∧
      m'.scene_node_ = (reset w m).2.scene_node_) ∨
    (new_message.mesh_resource ≠ "" ∧ ∃ mesh w2 m2,
      (reset w m).1.loadMeshFromResource new_message.mesh_resource = some mesh ∧
      buildEntity (reset w m).1 (reset w m).2 new_message mesh = .ok (w2, m2) ∧
      applyColor (effectiveColor new_message) w2 m2.materials_ = .ok w' ∧
      m' = finish m2 new_message) := by
  unfold rebuild at hok
  by_cases hres : new_message.mesh_resource = ""
  · rw [if_pos hres] at hok
    exact Or.inl ⟨hres, (Except.ok.inj hok).symm⟩
  · simp only [if_neg hres] at hok
    cases hl : (reset w m).1.loadMeshFromResource new_message.mesh_resource with
    | none =>
      simp only [hl] at hok
      obtain ⟨h1, h2⟩ := Prod.mk.inj (Except.ok.inj hok)
      refine Or.inr (Or.inl ⟨hres, rfl, ?_, ?_, ?_, ?_, ?_, ?_⟩)
      · rw [← h2]; exact reset_entity w m
      · rw [← h2]; exact reset_materials w m
      · rw [← h1]
      · rw [← h1]
      · rw [← h1]
      · rw [← h2]
    | some mesh =>
      simp only [hl] at hok
      cases hb : buildEntity (reset w m).1 (reset w m).2 new_message mesh with
      | error e => simp only [hb] at hok; cases hok
      | ok r =>
        obtain ⟨w2, m2⟩ := r
        simp only [hb] at hok
        cases hc : applyColor (effectiveColor new_message) w2 m2.materials_ with
        | error e => simp only [hc] at hok; cases hok
        | ok w3 =>
          simp only [hc] at hok
          obtain ⟨h1, h2⟩ := Prod.mk.inj (Except.ok.inj hok)
          subst h1
          exact Or.inr (Or.inr ⟨hres, mesh, w2, m2, rfl, hb, hc, h2.symm⟩)

theorem recolor_cases {w : World} {m : MeshResourceMarker}
    {old_message : Option AnimatedMarker} {new_message : AnimatedMarker}
    {w' : World} {m' : MeshResourceMarker}
    (hok : recolor w m old_message new_message = .ok (w', m')) :
    m' = finish m new_message ∧
    ((colorChanged old_message new_message = .ok true ∧
        applyColor (effectiveColor new_message) w m.materials_ = .ok w') ∨
     (colorChanged old_message new_message = .ok false ∧ w' = w)) := by
  unfold recolor at hok
  cases hc : colorChanged old_message new_message with
  | error e => simp only [hc] at hok; cases hok
  | ok b =>
    cases b with
    | false =>
      simp only [hc] at hok
      obtain ⟨h1, h2⟩ := Prod.mk.inj (Except.ok.inj hok)
      exact ⟨h2.symm, Or.inr ⟨rfl, h1.symm⟩⟩
    | true =>
      simp only [hc] at hok
      cases ha : applyColor (effectiveColor new_message) w m.materials_ with
      | error e => simp only [ha] at hok; cases hok
      | ok w3 =>
        simp only [ha] at hok
        obtain ⟨h1, h2⟩ := Prod.mk.inj (Except.ok.inj hok)
        subst h1
        exact ⟨h2.symm, Or.inl ⟨rfl, rfl⟩⟩

/-! ## The colour loop -/

theorem colorTechnique_idem (c : ColorRGBA) (t : Technique) :
    colorTechnique c (colorTechnique c t) = colorTechnique c t := rfl

theorem applyColor_heap {c : ColorRGBA} {ps : List MaterialPtr} {w w' : World}
    (hok : applyColor c w ps = .ok w') (h : Nat) :
    w'.heap[h]? = (w.heap[h]?).map (fun mat =>
      if some h ∈ ps then { mat with technique0 := colorTechnique c mat.technique0 }
      else mat) := by
  induction ps generalizing w with
  | nil =>
    simp only [applyColor] at hok
    cases Except.ok.inj hok
    simp
  | cons p ps ih =>
    cases p with
    | none => simp only [applyColor] at hok; cases hok
    | some h' =>
      simp only [applyColor] at hok
      cases hm : w.heap[h']? with
      | none => simp only [hm] at hok; cases hok
      | some m0 =>
        simp only [hm] at hok
        rw [ih hok, World.heap_modifyMaterial]
        cases w.heap[h]? with
        | none => rfl
        | some mat =>
          by_cases hh : h = h'
          · subst hh
            by_cases hps : some h ∈ ps <;> simp [hps, colorTechnique_idem]
          · have hh' : ¬ h' = h := fun e => hh e.symm
            by_cases hps : some h ∈ ps <;> simp [hps, hh, hh']

theorem applyColor_valid {c : ColorRGBA} {ps : List MaterialPtr} {w w' : World}
    (hok : applyColor c w ps = .ok w') :
    ∀ p ∈ ps, ∃ h mat, p = some h ∧ w.heap[h]? = some mat := by
  induction ps generalizing w with
  | nil => intro p hp; simp at hp
  | cons q ps ih =>
    cases q with
    | none => simp only [applyColor] at hok; cases hok
    | some h' =>
      simp only [applyColor] at hok
      cases hm : w.heap[h']? with
      | none => simp only [hm] at hok; cases hok
      | some m0 =>
        simp only [hm] at hok
        intro p hp
        rcases List.mem_cons.mp hp with e | e
        · exact ⟨h', m0, e, hm⟩
        · obtain ⟨h, mat, hp1, hp2⟩ := ih hok p e
          rw [World.heap_modifyMaterial] at hp2
          cases hw : w.heap[h]? with
          | none => rw [hw] at hp2; cases hp2
          | some mat0 => exact ⟨h, mat0, hp1, hw⟩

theorem applyColor_frame {c : ColorRGBA} {ps : List MaterialPtr} {w w' : World}
    (hok : applyColor c w ps = .ok w') :
    w'.registry = w.registry ∧ w'.entities = w.entities ∧ w'.resources = w.resources ∧
    w'.count = w.count ∧ w'.log = w.log ∧ w'.heap.length = w.heap.length := by
  induction ps generalizing w with
  | nil =>
    simp only [applyColor] at hok
    cases Except.ok.inj hok
    simp
  | cons p ps ih =>
    cases p with
    | none => simp only [applyColor] at hok; cases hok
    | some h' =>
      simp only [applyColor] at hok
      cases hm : w.heap[h']? with
      | none => simp only [hm] at hok; cases hok
      | some m0 =>
        simp only [hm] at hok
        have := ih hok
        simpa [World.modifyMaterial, hm] using this

theorem applyColor_technique {c : ColorRGBA} {ps : List MaterialPtr} {w w' : World}
    (hok : applyColor c w ps = .ok w') :
    ∀ p ∈ ps, ∃ h mat, p = some h ∧ w'.heap[h]? = some mat ∧
      mat.technique0 =
        { lightingEnabled := true
          ambient := (c.r.half, c.g.half, c.b.half)
          diffuse := (c.r, c.g, c.b, c.a)
          sceneBlending :=
            if c.a.ltConst (9998 / 10000) then SceneBlendType.SBT_TRANSPARENT_ALPHA
            else SceneBlendType.SBT_REPLACE
          depthWriteEnabled := !c.a.ltConst (9998 / 10000) } := by
  intro p hp
  obtain ⟨h, mat, rfl, hm⟩ := applyColor_valid hok p hp
  refine ⟨h, { mat with technique0 := colorTechnique c mat.technique0 }, rfl, ?_, rfl⟩
  rw [applyColor_heap hok, hm]
  simp [hp]

/-! ## C4: the colour applied -/

theorem Real32.eq_zero_iff (x : Real32) : x.eq (.fin 0) = true ↔ x = .fin 0 := by
  cases x <;> simp [Real32.eq]

theorem Real32.ltConst_one : (Real32.fin 1).ltConst (9998 / 10000) = false := by
  simp only [Real32.ltConst, decide_eq_false_iff_not]
  norm_num

theorem Real32.half_of_normal (a : ℚ) (h : a ≤ -(1 / 2 ^ 125) ∨ 1 / 2 ^ 125 ≤ a) :
    (Real32.fin a).half = .fin (a * (1 / 2)) := by
  simp only [Real32.half]
  rw [if_neg]
  rintro ⟨h1, h2⟩
  rcases h with h | h
  · exact absurd h (not_le.mpr h1)
  · exact absurd h (not_le.mpr h2)

theorem Real32.half_of_small (a : ℚ) (h1 : -(1 / 2 ^ 125) < a) (h2 : a < 1 / 2 ^ 125) :
    (Real32.fin a).half =
      .fin (Real32.roundTiesEven (a * (1 / 2) * 2 ^ 149) / 2 ^ 149) := by
  simp only [Real32.half]
  rw [if_pos ⟨h1, h2⟩]

theorem Real32.roundTiesEven_zero : Real32.roundTiesEven 0 = 0 := by
  unfold Real32.roundTiesEven
  norm_num

theorem Real32.roundTiesEven_one_half : Real32.roundTiesEven (1 / 2) = 0 := by
  have hf : ⌊(1 / 2 : ℚ)⌋ = 0 := by
    rw [Int.floor_eq_iff]; norm_num
  unfold Real32.roundTiesEven
  rw [hf]
  norm_num

theorem Real32.roundTiesEven_three_halves : Real32.roundTiesEven (3 / 2) = 2 := by
  have hf : ⌊(3 / 2 : ℚ)⌋ = 1 := by
    rw [Int.floor_eq_iff]; norm_num
  unfold Real32.roundTiesEven
  rw [hf]
  norm_num

theorem Real32.half_zero : (Real32.fin 0).half = .fin 0 := by
  rw [Real32.half_of_small _ (by norm_num) (by norm_num)]
  norm_num [Real32.roundTiesEven_zero]

theorem Real32.half_one : (Real32.fin 1).half = .fin (1 / 2) := by
  rw [Real32.half_of_normal 1 (Or.inr (by norm_num))]
  norm_num

theorem Real32.half_least : (Real32.fin (1 / 2 ^ 149)).half = .fin 0 := by
  have h1 : ((1 : ℚ) / 2 ^ 149 * (1 / 2) * 2 ^ 149) = 1 / 2 := by norm_num
  rw [Real32.half_of_small _ (by norm_num) (by norm_num), h1, Real32.roundTiesEven_one_half]
  norm_num

theorem Real32.half_three_least :
    (Real32.fin (3 / 2 ^ 149)).half = .fin (1 / 2 ^ 148) := by
  have h1 : ((3 : ℚ) / 2 ^ 149 * (1 / 2) * 2 ^ 149) = 3 / 2 := by norm_num
  rw [Real32.half_of_small _ (by norm_num) (by norm_num), h1,
    Real32.roundTiesEven_three_halves]
  norm_num

theorem effectiveColor_white (new_message : AnimatedMarker)
    (he : new_message.mesh_use_embedded_materials = true)
    (hc : new_message.color = ⟨.fin 0, .fin 0, .fin 0, .fin 0⟩) :
    effectiveColor new_message = ⟨.fin 1, .fin 1, .fin 1, .fin 1⟩ := by
  simp [effectiveColor, he, hc, Real32.eq]

theorem effectiveColor_unchanged (new_message : AnimatedMarker)
    (h : new_message.mesh_use_embedded_materials = false ∨ new_message.color.r ≠ .fin 0 ∨
      new_message.color.g ≠ .fin 0 ∨ new_message.color.b ≠ .fin 0 ∨
      new_message.color.a ≠ .fin 0) :
    effectiveColor new_message = new_message.color := by
  unfold effectiveColor
  simp only [Real32.eq_zero_iff]
  rw [if_neg]
  rintro ⟨h1, h2, h3, h4, h5⟩
  rcases h with h | h | h | h | h
  · rw [h1] at h; cases h
  · exact h h2
  · exact h h3
  · exact h h4
  · exact h h5

theorem onNewMessage_applyColor {w : World} {m : MeshResourceMarker}
    {old_message : Option AnimatedMarker} {new_message : AnimatedMarker}
    {w' : World} {m' : MeshResourceMarker}
    (hok : onNewMessage w m old_message new_message = .ok (w', m'))
    (happ : appliesColor w m old_message new_message = true) :
    ∃ w2, applyColor (effectiveColor new_message) w2 m'.materials_ = .ok w' := by
  unfold appliesColor at happ
  rcases onNewMessage_cases hok with ⟨hn, hr⟩ | ⟨hn, hr⟩
  · rw [hn] at happ
    simp only [Bool.and_eq_true, decide_eq_true_eq] at happ
    obtain ⟨hres, hsome⟩ := happ
    have hres1 := (reset_frame w (m.setVisible false)).1
    rcases rebuild_cases hr with ⟨h1, _⟩ | ⟨_, h2, _⟩ | ⟨_, mesh, w2, m2, _, _, hc, hm⟩
    · exact absurd h1 hres
    · rw [World.loadMeshFromResource, hres1] at h2
      rw [World.loadMeshFromResource, h2] at hsome
      cases hsome
    · exact ⟨w2, by rw [hm]; exact hc⟩
  · rw [hn] at happ
    obtain ⟨hm, ⟨hc, ha⟩ | ⟨hc, _⟩⟩ := recolor_cases hr
    · exact ⟨w, by rw [hm]; exact ha⟩
    · rw [hc] at happ; cases happ

/-- C4, amended: whenever `onNewMessage` returns and its colour block ran,
every pointer in `materials_` is a live material whose technique 0 now has
lighting on and the colour settings of the message: for a message with
embedded materials whose r, g, b and a are all 0 they are diffuse (1,1,1,1),
ambient (0.5,0.5,0.5), scene blending REPLACE and depth write on, which are
the settings the colour (1,1,1,1) gets; for a message without embedded
materials, or with a non-zero component, they are diffuse = r, g, b, a,
ambient = r*0.5, g*0.5, b*0.5 as stored in a float, and transparent-alpha
blending with depth write off exactly when a < 0.9998 (REPLACE with depth
write on otherwise).  The stored product is exactly half of the component when
its magnitude is at least 2^-125, and half of it rounded to the nearest
multiple of 2^-149, ties to even, when it is smaller. -/
theorem onNewMessage_colour_of_message (w : World) (m : MeshResourceMarker)
    (old_message : Option AnimatedMarker) (new_message : AnimatedMarker)
    (w' : World) (m' : MeshResourceMarker)
    (hok : onNewMessage w m old_message new_message = .ok (w', m'))
    (happ : appliesColor w m old_message new_message = true) :
    (∀ p ∈ m'.materials_, ∃ h mat, p = some h ∧ w'.heap[h]? = some mat ∧
      (new_message.mesh_use_embedded_materials = true →
        new_message.color = ⟨.fin 0, .fin 0, .fin 0, .fin 0⟩ →
        mat.technique0 =
          { lightingEnabled := true
            ambient := (.fin (1 / 2), .fin (1 / 2), .fin (1 / 2))
            diffuse := (.fin 1, .fin 1, .fin 1, .fin 1)
            sceneBlending := SceneBlendType.SBT_REPLACE
            depthWriteEnabled := true }) ∧
      (new_message.mesh_use_embedded_materials = false ∨ new_message.color.r ≠ .fin 0 ∨
          new_message.color.g ≠ .fin 0 ∨ new_message.color.b ≠ .fin 0 ∨
          new_message.color.a ≠ .fin 0 →
        mat.technique0 =
          { lightingEnabled := true
            ambient := (new_message.color.r.half, new_message.color.g.half,
              new_message.color.b.half)
            diffuse := (new_message.color.r, new_message.color.g, new_message.color.b,
              new_message.color.a)
            sceneBlending :=
              if new_message.color.a.ltConst (9998 / 10000) then
                SceneBlendType.SBT_TRANSPARENT_ALPHA
              else SceneBlendType.SBT_REPLACE
            depthWriteEnabled := !new_message.color.a.ltConst (9998 / 10000) })) ∧
    ({ lightingEnabled := true
       ambient := ((Real32.fin 1).half, (Real32.fin 1).half, (Real32.fin 1).half)
       diffuse := (.fin 1, .fin 1, .fin 1, .fin 1)
       sceneBlending :=
         if (Real32.fin 1).ltConst (9998 / 10000) then SceneBlendType.SBT_TRANSPARENT_ALPHA
         else SceneBlendType.SBT_REPLACE
       depthWriteEnabled := !(Real32.fin 1).ltConst (9998 / 10000) } : Technique) =
      { lightingEnabled := true
        ambient := (.fin (1 / 2), .fin (1 / 2), .fin (1 / 2))
        diffuse := (.fin 1, .fin 1, .fin 1, .fin 1)
        sceneBlending := SceneBlendType.SBT_REPLACE
        depthWriteEnabled := true } ∧
    (∀ a : ℚ, a ≤ -(1 / 2 ^ 125) ∨ 1 / 2 ^ 125 ≤ a →
      (Real32.fin a).half = .fin (a * (1 / 2))) ∧
    (∀ a : ℚ, -(1 / 2 ^ 125) < a → a < 1 / 2 ^ 125 →
      (Real32.fin a).half =
        .fin (Real32.roundTiesEven (a * (1 / 2) * 2 ^ 149) / 2 ^ 149)) := by
  refine ⟨?_, by simp [Real32.ltConst_one, Real32.half_one], Real32.half_of_normal,
    Real32.half_of_small⟩
  obtain ⟨w2, hc⟩ := onNewMessage_applyColor hok happ
  intro p hp
  obtain ⟨h, mat, hp1, hm, ht⟩ := applyColor_technique hc p hp
  refine ⟨h, mat, hp1, hm, ?_, ?_⟩
  · intro he hz
    rw [ht, effectiveColor_white new_message he hz]
    simp [Real32.ltConst_one, Real32.half_one]
  · intro hnz
    rw [ht, effectiveColor_unchanged new_message hnz]

/-! ## Creating entities and materials -/

theorem World.LoadedOnly.refl (w : World) : w.LoadedOnly w :=
  ⟨rfl, rfl, rfl, rfl, rfl, rfl⟩

theorem World.LoadedOnly.trans {a b c : World} (h1 : a.LoadedOnly b) (h2 : b.LoadedOnly c) :
    a.LoadedOnly c :=
  ⟨h2.1.trans h1.1, h2.2.1.trans h1.2.1, h2.2.2.1.trans h1.2.2.1,
    h2.2.2.2.1.trans h1.2.2.2.1, h2.2.2.2.2.1.trans h1.2.2.2.2.1,
    h2.2.2.2.2.2.trans h1.2.2.2.2.2⟩

theorem World.LoadedOnly.length {a b : World} (h : a.LoadedOnly b) :
    b.heap.length = a.heap.length := by
  have := congrArg List.length h.1
  simpa using this

theorem World.LoadedOnly.getElem? {a b : World} (h : a.LoadedOnly b) (k : Nat) :
    (b.heap[k]?).map Material.unloaded = (a.heap[k]?).map Material.unloaded := by
  have := congrArg (fun l => l[k]?) h.1
  simpa [List.getElem?_map] using this

theorem World.LoadedOnly.materialName {a b : World} (h : a.LoadedOnly b) (k : Nat) :
    b.materialName k = a.materialName k := by
  have hk := h.getElem? k
  unfold World.materialName
  cases ha : a.heap[k]? <;> cases hb : b.heap[k]? <;> rw [ha, hb] at hk <;>
    simp [Material.unloaded] at hk ⊢
  exact hk.1

theorem World.LoadedOnly.getByName {a b : World} (h : a.LoadedOnly b) (n : String) :
    b.getByName n = a.getByName n := by
  unfold World.getByName
  rw [h.2.1]

theorem World.loadedOnly_load (w : World) (h : Nat) : w.LoadedOnly (w.load h) := by
  refine ⟨?_, ?_, ?_, ?_, ?_, ?_⟩
  · apply List.ext_getElem?
    intro k
    simp only [List.getElem?_map, World.load, World.heap_modifyMaterial]
    cases w.heap[k]? with
    | none => rfl
    | some mat => by_cases hk : k = h <;> simp [hk, Material.unloaded]
  all_goals
    unfold World.load World.modifyMaterial
    cases w.heap[h]? <;> rfl

theorem World.buildSubEntityList_spec {names : List String} {w w1 : World}
    {subs : List SubEntity} (hok : w.buildSubEntityList names = .ok (w1, subs)) :
    w.LoadedOnly w1 ∧ subs.length = names.length ∧
    ∀ s ∈ subs, ∃ n, w.getByName n = some s.material := by
  induction names generalizing w w1 subs with
  | nil =>
    simp only [World.buildSubEntityList] at hok
    obtain ⟨h1, h2⟩ := Prod.mk.inj (Except.ok.inj hok)
    subst h1; subst h2
    exact ⟨World.LoadedOnly.refl _, rfl, by simp⟩
  | cons n rest ih =>
    simp only [World.buildSubEntityList] at hok
    cases hr : w.resolveMaterial n with
    | error e => simp only [hr] at hok; cases hok
    | ok h =>
      simp only [hr] at hok
      cases hb : (w.load h).buildSubEntityList rest with
      | error e => simp only [hb] at hok; cases hok
      | ok r =>
        obtain ⟨w2, subs2⟩ := r
        simp only [hb] at hok
        obtain ⟨h1, h2⟩ := Prod.mk.inj (Except.ok.inj hok)
        subst h1; subst h2
        obtain ⟨i1, i2, i3⟩ := ih hb
        have hl := World.loadedOnly_load w h
        refine ⟨hl.trans i1, by simp [i2], ?_⟩
        intro s hs
        rcases List.mem_cons.mp hs with e | e
        · subst e
          unfold World.resolveMaterial at hr
          cases h1 : w.getByName n with
          | some h' =>
            rw [h1] at hr
            exact ⟨n, by rw [h1]; exact congrArg some (Except.ok.inj hr)⟩
          | none =>
            rw [h1] at hr
            cases h2 : w.getByName "BaseWhite" with
            | some h' =>
              rw [h2] at hr
              exact ⟨"BaseWhite", by rw [h2]; exact congrArg some (Except.ok.inj hr)⟩
            | none => rw [h2] at hr; cases hr
        · obtain ⟨n', hn'⟩ := i3 s e
          exact ⟨n', by rw [← hl.getByName]; exact hn'⟩

theorem World.createEntity_spec {w w1 : World} {name meshName : String} {mesh : Mesh}
    {created : Entity} (hok : w.createEntity name meshName mesh = .ok (w1, created)) :
    name ∉ w.entities ∧ created.name = name ∧ created.meshName = meshName ∧
    w1.entities = name :: w.entities ∧
    w1.heap.map Material.unloaded = w.heap.map Material.unloaded ∧
    w1.registry = w.registry ∧ w1.resources = w.resources ∧ w1.count = w.count ∧
    w1.log = w.log ∧
    created.subEntities.length = mesh.subMeshMaterials.length ∧
    created.animationStates =
      mesh.animations.map (fun l => l.map (fun a => ⟨a, false, false⟩)) ∧
    ∀ s ∈ created.subEntities, ∃ n, w.getByName n = some s.material := by
  unfold World.createEntity at hok
  by_cases hmem : name ∈ w.entities
  · rw [if_pos hmem] at hok; cases hok
  · rw [if_neg hmem] at hok
    cases hb : w.buildSubEntityList mesh.subMeshMaterials with
    | error e => simp only [hb] at hok; cases hok
    | ok r =>
      obtain ⟨w2, subs⟩ := r
      simp only [hb] at hok
      obtain ⟨h1, h2⟩ := Prod.mk.inj (Except.ok.inj hok)
      subst h1; subst h2
      obtain ⟨⟨l1, l2, l3, l4, l5, l6⟩, i2, i3⟩ := World.buildSubEntityList_spec hb
      exact ⟨hmem, rfl, rfl, by simp [l3], l1, l2, l4, l5, l6, i2, rfl, i3⟩

theorem World.create_spec {w wd : World} {name : String} {d : Nat}
    (hok : w.create name = .ok (wd, d)) :
    w.getByName name = none ∧ d = w.heap.length ∧
    wd = { w with heap := w.heap ++ [Material.fresh name],
                  registry := (name, w.heap.length) :: w.registry } := by
  unfold World.create at hok
  cases hg : w.getByName name with
  | some h => rw [hg] at hok; cases hok
  | none =>
    rw [hg] at hok
    obtain ⟨h1, h2⟩ := Prod.mk.inj (Except.ok.inj hok)
    exact ⟨rfl, h2.symm, h1.symm⟩

theorem World.clone_spec {w wc : World} {src : Nat} {newName : String} {c : Nat}
    (hok : w.clone src newName = .ok (wc, c)) :
    ∃ mat, w.heap[src]? = some mat ∧ w.getByName newName = none ∧ c = w.heap.length ∧
      wc = { w with heap := w.heap ++ [{ mat with name := newName }],
                    registry := (newName, w.heap.length) :: w.registry } := by
  unfold World.clone at hok
  cases hs : w.heap[src]? with
  | none => simp only [hs] at hok; cases hok
  | some mat =>
    simp only [hs] at hok
    cases hg : w.getByName newName with
    | some h => rw [hg] at hok; cases hok
    | none =>
      rw [hg] at hok
      obtain ⟨h1, h2⟩ := Prod.mk.inj (Except.ok.inj hok)
      exact ⟨mat, rfl, rfl, h2.symm, h1.symm⟩

/-! ## The entity build -/

theorem World.create_default {w wd : World} {name : String} {d : Nat}
    (hok : w.create name = .ok (wd, d)) :
    wd.modifyMaterial d (fun mat =>
      { mat with
        receiveShadows := false
        technique0 :=
          { mat.technique0 with
            lightingEnabled := true
            ambient := (Real32.fin (1 / 2), Real32.fin (1 / 2), Real32.fin (1 / 2)) } }) =
      w.withDefaultMaterial name := by
  obtain ⟨_, hd, hw⟩ := World.create_spec hok
  subst hd; subst hw
  unfold World.modifyMaterial World.withDefaultMaterial
  simp [defaultMaterial, Material.fresh]

theorem buildEntity_inv {w : World} {m : MeshResourceMarker} {new_message : AnimatedMarker}
    {mesh : Mesh} {w2 : World} {m2 : MeshResourceMarker}
    (hok : buildEntity w m new_message mesh = .ok (w2, m2)) :
    ∃ w1 created e,
      ({ w with count := (w.count + 1) % 2 ^ 32 } : World).createEntity (entityName w.count)
        new_message.mesh_resource mesh = .ok (w1, created) ∧
      w1.getByName (entityName w.count ++ "Material") = none ∧
      m2.entity_ = some e ∧ e.name = entityName w.count ∧
      e.meshName = new_message.mesh_resource ∧
      m2.scene_node_ = { m.scene_node_ with
        attached := entityName w.count :: m.scene_node_.attached } ∧
      m2.handler_ = some ⟨(new_message.ns, new_message.id), [entityName w.count]⟩ ∧
      m2.owner_ = m.owner_ ∧ m2.getID = m.getID ∧ m2.getStringID = m.getStringID ∧
      (new_message.mesh_use_embedded_materials = false →
        m2.materials_ = setInsert (some w1.heap.length) m.materials_ ∧
        e.subEntities = created.subEntities.map (fun _ => ⟨w1.heap.length⟩) ∧
        w2 = created.subEntities.foldl (fun acc _ => acc.load w1.heap.length)
          (w1.withDefaultMaterial (entityName w.count ++ "Material"))) ∧
      (new_message.mesh_use_embedded_materials = true →
        ∃ w4, cloneEmbedded (entityName w.count)
            (w1.withDefaultMaterial (entityName w.count ++ "Material"))
            (setInsert (some w1.heap.length) m.materials_)
            (extractMaterials created []) = .ok (w4, m2.materials_) ∧
          useClonedMaterials (entityName w.count) w1.heap.length w4 created.subEntities =
            .ok (w2, e.subEntities)) := by
  simp only [buildEntity] at hok
  cases hc : ({ w with count := (w.count + 1) % 2 ^ 32 } : World).createEntity
      (entityName w.count) new_message.mesh_resource mesh with
  | error e => simp only [hc] at hok; cases hok
  | ok r =>
    obtain ⟨w1, created⟩ := r
    simp only [hc] at hok
    cases hd : w1.create (entityName w.count ++ "Material") with
    | error e => simp only [hd] at hok; cases hok
    | ok r =>
      obtain ⟨wd, d⟩ := r
      simp only [hd] at hok
      rw [World.create_default hd] at hok
      obtain ⟨hnone, hdl, -⟩ := World.create_spec hd
      subst hdl
      obtain ⟨-, hname, hmesh, -⟩ := World.createEntity_spec hc
      cases hemb : new_message.mesh_use_embedded_materials with
      | false =>
        simp only [hemb] at hok
        obtain ⟨h1, h2⟩ := Prod.mk.inj (Except.ok.inj hok)
        subst h1; subst h2
        refine ⟨w1, created, _, rfl, hnone, rfl, hname, hmesh, rfl, rfl, rfl, rfl, rfl, ?_, ?_⟩
        · intro _
          exact ⟨rfl, rfl, rfl⟩
        · intro h; cases h
      | true =>
        simp only [hemb] at hok
        have hex : ∀ a : Option (List AnimationState),
            getMaterials { m with entity_ := some { created with animationStates := a } } =
              extractMaterials created [] := fun _ => rfl
        rw [hex] at hok
        cases hcl : cloneEmbedded (entityName w.count)
            (w1.withDefaultMaterial (entityName w.count ++ "Material"))
            (setInsert (some w1.heap.length) m.materials_) (extractMaterials created []) with
        | error e => simp only [hcl] at hok; cases hok
        | ok r =>
          obtain ⟨w4, ms⟩ := r
          simp only [hcl] at hok
          cases hu : useClonedMaterials (entityName w.count)
              w1.heap.length w4 created.subEntities with
          | error e => simp only [hu] at hok; cases hok
          | ok r =>
            obtain ⟨w5, subs⟩ := r
            simp only [hu] at hok
            obtain ⟨h1, h2⟩ := Prod.mk.inj (Except.ok.inj hok)
            subst h1; subst h2
            refine ⟨w1, created, _, rfl, hnone, rfl, hname, hmesh, rfl, rfl, rfl, rfl, rfl,
              ?_, ?_⟩
            · intro h; cases h
            · intro _
              exact ⟨w4, hcl, hu⟩

theorem onNewMessage_rebuilt {w : World} {m : MeshResourceMarker}
    {old_message : Option AnimatedMarker} {new_message : AnimatedMarker} {mesh : Mesh}
    {w' : World} {m' : MeshResourceMarker}
    (hok : onNewMessage w m old_message new_message = .ok (w', m'))
    (hload : m.entity_ = none ∨ ∃ o, old_message = some o ∧
      (o.mesh_resource ≠ new_message.mesh_resource ∨
       o.mesh_use_embedded_materials ≠ new_message.mesh_use_embedded_materials))
    (hres : new_message.mesh_resource ≠ "")
    (hmesh : w.loadMeshFromResource new_message.mesh_resource = some mesh) :
    ∃ w2 m2,
      buildEntity (reset w (m.setVisible false)).1 (reset w (m.setVisible false)).2
        new_message mesh = .ok (w2, m2) ∧
      applyColor (effectiveColor new_message) w2 m2.materials_ = .ok w' ∧
      m' = finish m2 new_message := by
  have hnr := needsRebuild_of_claim m old_message new_message hload
  have hres1 := (reset_frame w (m.setVisible false)).1
  rcases onNewMessage_cases hok with ⟨_, hr⟩ | ⟨hn, _⟩
  · rcases rebuild_cases hr with ⟨h1, _⟩ | ⟨_, h2, _⟩ | ⟨_, mesh2, w2, m2, hl, hb, hc, hm⟩
    · exact absurd h1 hres
    · rw [World.loadMeshFromResource, hres1] at h2
      rw [World.loadMeshFromResource, h2] at hmesh
      cases hmesh
    · rw [World.loadMeshFromResource, hres1] at hl
      rw [World.loadMeshFromResource, hl] at hmesh
      cases hmesh
      exact ⟨w2, m2, hb, hc, hm⟩
  · rw [hnr] at hn
    cases hn

theorem loadedOnly_foldl_load {α : Type} (l : List α) (w : World) (d : Nat) :
    w.LoadedOnly (l.foldl (fun acc _ => acc.load d) w) := by
  induction l generalizing w with
  | nil => exact World.LoadedOnly.refl w
  | cons a l ih => exact (World.loadedOnly_load w d).trans (ih (w.load d))

theorem applyColor_preserves {c : ColorRGBA} {ps : List MaterialPtr} {w w' : World}
    (hok : applyColor c w ps = .ok w') (h : Nat) :
    (w'.heap[h]?).map (fun mat => (mat.name, mat.receiveShadows, mat.loaded)) =
      (w.heap[h]?).map (fun mat => (mat.name, mat.receiveShadows, mat.loaded)) := by
  rw [applyColor_heap hok]
  cases w.heap[h]? with
  | none => rfl
  | some mat => by_cases hp : some h ∈ ps <;> simp [hp]

theorem applyColor_materialName {c : ColorRGBA} {ps : List MaterialPtr} {w w' : World}
    (hok : applyColor c w ps = .ok w') (h : Nat) :
    w'.materialName h = w.materialName h := by
  have := applyColor_preserves hok h
  unfold World.materialName
  cases h1 : w.heap[h]? <;> cases h2 : w'.heap[h]? <;> rw [h1, h2] at this <;>
    simp at this ⊢
  exact this.1

/-! ## C6: a rebuild without embedded materials -/

/-- C6, amended: when `onNewMessage` returns after building an entity for a
message without embedded materials, `materials_` holds exactly one pointer, to
the material object created by the call (at the first free address); that
material is named "mesh_resource_marker_<n>Material" with n the value of the
static counter and is registered under that name, has shadows off and lighting
on, and carries the colour of the message, whatever the old colour was:
diffuse = r, g, b, a, blending by a, and ambient = r*0.5, g*0.5, b*0.5 as
stored in a float, which is exactly half of the component when its magnitude
is at least 2^-125 and half of it rounded to the nearest multiple of 2^-149,
ties to even, when it is smaller; the entity is named
"mesh_resource_marker_<n>" and every sub-entity uses that material. -/
theorem onNewMessage_default_material_only (w : World) (m : MeshResourceMarker)
    (old_message : Option AnimatedMarker) (new_message : AnimatedMarker) (mesh : Mesh)
    (w' : World) (m' : MeshResourceMarker)
    (hok : onNewMessage w m old_message new_message = .ok (w', m'))
    (hload : m.entity_ = none ∨ ∃ o, old_message = some o ∧
      (o.mesh_resource ≠ new_message.mesh_resource ∨
       o.mesh_use_embedded_materials ≠ new_message.mesh_use_embedded_materials))
    (hres : new_message.mesh_resource ≠ "")
    (hmesh : w.loadMeshFromResource new_message.mesh_resource = some mesh)
    (hemb : new_message.mesh_use_embedded_materials = false) :
    m'.materials_ = [some w.heap.length] ∧
    (∃ mat, w'.heap[w.heap.length]? = some mat ∧
      mat.name = "mesh_resource_marker_" ++ toString w.count ++ "Material" ∧
      mat.receiveShadows = false ∧
      mat.technique0 =
        { lightingEnabled := true
          ambient := (new_message.color.r.half, new_message.color.g.half,
            new_message.color.b.half)
          diffuse := (new_message.color.r, new_message.color.g, new_message.color.b,
            new_message.color.a)
          sceneBlending :=
            if new_message.color.a.ltConst (9998 / 10000) then
              SceneBlendType.SBT_TRANSPARENT_ALPHA
            else SceneBlendType.SBT_REPLACE
          depthWriteEnabled := !new_message.color.a.ltConst (9998 / 10000) }) ∧
    w'.getByName ("mesh_resource_marker_" ++ toString w.count ++ "Material") =
      some w.heap.length ∧
    (∃ e, m'.entity_ = some e ∧ e.name = "mesh_resource_marker_" ++ toString w.count ∧
      e.meshName = new_message.mesh_resource ∧
      e.subEntities.length = mesh.subMeshMaterials.length ∧
      ∀ s ∈ e.subEntities, s.material = w.heap.length) ∧
    (∀ a : ℚ, a ≤ -(1 / 2 ^ 125) ∨ 1 / 2 ^ 125 ≤ a →
      (Real32.fin a).half = .fin (a * (1 / 2))) ∧
    (∀ a : ℚ, -(1 / 2 ^ 125) < a → a < 1 / 2 ^ 125 →
      (Real32.fin a).half =
        .fin (Real32.roundTiesEven (a * (1 / 2) * 2 ^ 149) / 2 ^ 149)) := by
  obtain ⟨w2, m2, hb, hc, hm⟩ := onNewMessage_rebuilt hok hload hres hmesh
  obtain ⟨-, f2, -, f4, -⟩ := reset_frame w (m.setVisible false)
  have hmat0 := reset_materials w (m.setVisible false)
  obtain ⟨w1, created, e, hce, hnone, he, hen, hem, -, -, -, -, -, hplain, -⟩ :=
    buildEntity_inv hb
  obtain ⟨-, -, -, -, hheap, hreg, -, -, -, hlen, -, -⟩ := World.createEntity_spec hce
  have hl1 : w1.heap.length = w.heap.length := by
    have := congrArg List.length hheap
    simp only [List.length_map] at this
    rw [this]
    exact f4
  obtain ⟨hms, hsubs, hw2⟩ := hplain hemb
  rw [hmat0, hl1] at hms
  rw [hl1] at hsubs hw2
  rw [f2] at hen hw2 hnone
  have hms' : m'.materials_ = [some w.heap.length] := by
    rw [hm]
    show m2.materials_ = _
    rw [hms]
    rfl
  have hlo := loadedOnly_foldl_load created.subEntities
    (w1.withDefaultMaterial (entityName w.count ++ "Material")) w.heap.length
  rw [← hw2] at hlo
  have hd : (w1.withDefaultMaterial (entityName w.count ++ "Material")).heap[w.heap.length]? =
      some (defaultMaterial (entityName w.count ++ "Material")) := by
    unfold World.withDefaultMaterial
    rw [← hl1]
    simp
  refine ⟨hms', ?_, ?_, ?_, Real32.half_of_normal, Real32.half_of_small⟩
  · rw [hms] at hc
    obtain ⟨h, mat, hp, hmat, ht⟩ :=
      applyColor_technique hc (some w.heap.length) (by simp [setInsert])
    cases hp
    refine ⟨mat, hmat, ?_, ?_, ?_⟩
    · have h1 := applyColor_materialName hc w.heap.length
      have h2 := hlo.materialName w.heap.length
      have h3 : w'.materialName w.heap.length = mat.name := by
        simp [World.materialName, hmat]
      rw [← h3, h1, h2, World.materialName, hd]
      rfl
    · have h1 := applyColor_preserves hc w.heap.length
      have h2 := hlo.getElem? w.heap.length
      rw [hmat] at h1
      rw [hd] at h2
      cases hw2h : w2.heap[w.heap.length]? with
      | none => rw [hw2h] at h1; cases h1
      | some mat2 =>
        rw [hw2h] at h1 h2
        simp only [Option.map_some', Option.some.injEq, Prod.mk.injEq] at h1
        simp only [Option.map_some', Option.some.injEq, Material.unloaded] at h2
        have h3 := congrArg Material.receiveShadows h2
        simp only [defaultMaterial] at h3
        rw [h1.2.1, h3]
    · rw [ht, effectiveColor_unchanged new_message (Or.inl hemb)]
  · have h1 := (applyColor_frame hc).1
    show w'.registry.lookup _ = _
    rw [h1, hlo.2.1]
    simp [World.withDefaultMaterial, entityName, hl1]
  · refine ⟨e, ?_, hen, hem, ?_, ?_⟩
    · rw [hm]; exact he
    · rw [hsubs]; simp [hlen]
    · intro s hs
      rw [hsubs] at hs
      obtain ⟨_, _, rfl⟩ := List.mem_map.mp hs
      rfl

/-! ## C3: one marker per key -/

theorem length_filter_filter_le {β : Type} (p q : β → Bool) (l : List β) :
    ((l.filter q).filter p).length ≤ (l.filter p).length := by
  induction l with
  | nil => simp
  | cons a l ih =>
    cases hq : q a <;> cases hp : p a <;>
      simp only [List.filter_cons, hq, hp, Bool.false_eq_true, if_true, if_false,
        List.length_cons] <;> omega

theorem filter_eq_filter_ne {β : Type} (id : MarkerID) (l : List (MarkerID × β)) :
    (l.filter (fun e => e.1 != id)).filter (fun e => e.1 == id) = [] := by
  induction l with
  | nil => rfl
  | cons a l ih =>
    by_cases h : a.1 = id <;> simp [List.filter_cons, h, ih]

theorem storeMarker_entries {α : Type} (t : M_IDToMarker α) (id : MarkerID) (marker : α) :
    (storeMarker t id marker).filter (fun e => e.1 == id) = [(id, marker)] ∧
    (storeMarker t id marker).filter (fun e => e.1 != id) = t.filter (fun e => e.1 != id) ∧
    (storeMarker t id marker).lookup id = some marker := by
  refine ⟨?_, ?_, ?_⟩
  · unfold storeMarker
    rw [List.filter_cons]
    simp only [beq_self_eq_true, if_true, filter_eq_filter_ne]
  · unfold storeMarker
    rw [List.filter_cons]
    simp
  · simp [storeMarker]

theorem apply_one_per_key {α : Type} (t : M_IDToMarker α) (op : TableOp α)
    (ht : ∀ k, (t.filter (fun e => e.1 == k)).length ≤ 1) :
    ∀ k, ((op.apply t).filter (fun e => e.1 == k)).length ≤ 1 := by
  intro k
  cases op with
  | delete id =>
    exact Nat.le_trans (length_filter_filter_le _ _ t) (ht k)
  | store id marker =>
    show ((storeMarker t id marker).filter (fun e => e.1 == k)).length ≤ 1
    by_cases hk : id = k
    · subst hk
      rw [(storeMarker_entries t id marker).1]
      simp
    · unfold storeMarker
      rw [List.filter_cons]
      have : ((id, marker).1 == k) = false := by simpa using hk
      simp only [this]
      exact Nat.le_trans (length_filter_filter_le _ _ t) (ht k)

theorem foldl_one_per_key {α : Type} (ops : List (TableOp α)) (t : M_IDToMarker α)
    (ht : ∀ k, (t.filter (fun e => e.1 == k)).length ≤ 1) :
    ∀ k, ((ops.foldl TableOp.apply t).filter (fun e => e.1 == k)).length ≤ 1 := by
  induction ops generalizing t with
  | nil => exact ht
  | cons op ops ih => exact ih _ (apply_one_per_key t op ht)

theorem runTable_one_per_key {α : Type} (ops : List (TableOp α)) (k : MarkerID) :
    ((runTable ops).filter (fun e => e.1 == k)).length ≤ 1 :=
  foldl_one_per_key ops [] (by simp) k

/-- C3: the marker table holds at most one marker per key (namespace, id),
whatever was stored and deleted; storing a marker under a key leaves the table
with exactly that marker under the key, keeps the entries of the other keys,
and makes the lookup of the key find it; and the selection handler of a
`MeshResourceMarker` that built an entity is registered under the key
(ns, id) of the message that built it and tracks that entity. -/
theorem markers_keyed_one_per_id {α : Type} (ops : List (TableOp α)) (id : MarkerID)
    (marker : α) (w : World) (m : MeshResourceMarker)
    (old_message : Option AnimatedMarker) (new_message : AnimatedMarker) (mesh : Mesh)
    (w' : World) (m' : MeshResourceMarker)
    (hok : onNewMessage w m old_message new_message = .ok (w', m'))
    (hload : m.entity_ = none ∨ ∃ o, old_message = some o ∧
      (o.mesh_resource ≠ new_message.mesh_resource ∨
       o.mesh_use_embedded_materials ≠ new_message.mesh_use_embedded_materials))
    (hres : new_message.mesh_resource ≠ "")
    (hmesh : w.loadMeshFromResource new_message.mesh_resource = some mesh) :
    (∀ k, ((runTable ops).filter (fun e => e.1 == k)).length ≤ 1) ∧
    (storeMarker (runTable ops) id marker).filter (fun e => e.1 == id) = [(id, marker)] ∧
    (storeMarker (runTable ops) id marker).filter (fun e => e.1 != id) =
      (runTable ops).filter (fun e => e.1 != id) ∧
    (storeMarker (runTable ops) id marker).lookup id = some marker ∧
    m'.handler_ = some
      { marker_id := (new_message.ns, new_message.id)
        tracked := ["mesh_resource_marker_" ++ toString w.count] } := by
  obtain ⟨s1, s2, s3⟩ := storeMarker_entries (runTable ops) id marker
  refine ⟨runTable_one_per_key ops, s1, s2, s3, ?_⟩
  obtain ⟨w2, m2, hb, hc, hm⟩ := onNewMessage_rebuilt hok hload hres hmesh
  obtain ⟨-, f2, -⟩ := reset_frame w (m.setVisible false)
  obtain ⟨w1, created, e, -, -, -, -, -, -, hh, -⟩ := buildEntity_inv hb
  rw [hm]
  show m2.handler_ = _
  rw [hh, f2]
  rfl

/-! ## The cloning loop -/

theorem getElem?_append_length {β : Type} (l : List β) (x : β) (ext : List β) :
    (l ++ x :: ext)[l.length]? = some x := by
  rw [List.getElem?_append_right (Nat.le_refl _)]
  simp

theorem World.LoadedOnly.resolveMaterial {a b : World} (h : a.LoadedOnly b) (n : String) :
    b.resolveMaterial n = a.resolveMaterial n := by
  unfold World.resolveMaterial
  rw [h.getByName, h.getByName]

theorem useClonedMaterials_spec (id : String) (d : Nat) (subs : List SubEntity) :
    ∀ (w w' : World) (subs' : List SubEntity),
    useClonedMaterials id d w subs = .ok (w', subs') →
    w.LoadedOnly w' ∧
    List.Forall₂ (fun s s' =>
      (w.materialName s.material = "BaseWhiteNoLighting" → s'.material = d) ∧
      (w.materialName s.material ≠ "BaseWhiteNoLighting" →
        w.resolveMaterial (id ++ w.materialName s.material) = .ok s'.material)) subs subs' := by
  induction subs with
  | nil =>
    intro w w' subs' hok
    simp only [useClonedMaterials] at hok
    obtain ⟨h1, h2⟩ := Prod.mk.inj (Except.ok.inj hok)
    subst h1; subst h2
    exact ⟨World.LoadedOnly.refl _, List.Forall₂.nil⟩
  | cons s rest ih =>
    intro w w' subs' hok
    simp only [useClonedMaterials] at hok
    cases ht : (if w.materialName s.material ≠ "BaseWhiteNoLighting" then
        w.resolveMaterial (id ++ w.materialName s.material) else Except.ok d) with
    | error e => simp only [ht] at hok; cases hok
    | ok h =>
      simp only [ht] at hok
      cases hr : useClonedMaterials id d (w.load h) rest with
      | error e => simp only [hr] at hok; cases hok
      | ok r =>
        obtain ⟨w2, subs2⟩ := r
        simp only [hr] at hok
        obtain ⟨h1, h2⟩ := Prod.mk.inj (Except.ok.inj hok)
        subst h1; subst h2
        obtain ⟨i1, i2⟩ := ih (w.load h) w2 subs2 hr
        have hl := World.loadedOnly_load w h
        refine ⟨hl.trans i1, List.Forall₂.cons ⟨?_, ?_⟩ ?_⟩
        · intro hb
          rw [if_neg (by simpa using hb)] at ht
          exact (Except.ok.inj ht).symm
        · intro hb
          rw [if_pos hb] at ht
          exact ht
        · refine List.Forall₂.imp ?_ i2
          intro a b hab
          rw [hl.materialName, hl.resolveMaterial] at hab
          exact hab

/-! ## The materials of the sub-entities -/

theorem setInsert_mem (p q : MaterialPtr) (s : List MaterialPtr) :
    q ∈ setInsert p s ↔ q = p ∨ q ∈ s := by
  unfold setInsert
  by_cases hp : p ∈ s
  · rw [if_pos hp]
    constructor
    · exact Or.inr
    · rintro (rfl | h)
      · exact hp
      · exact h
  · rw [if_neg hp]
    simp [or_comm]

theorem lookup_some_mem {β : Type} (l : List (String × β)) (k : String) (v : β)
    (h : l.lookup k = some v) : (k, v) ∈ l := by
  induction l with
  | nil => simp at h
  | cons e es ih =>
    obtain ⟨k', v'⟩ := e
    rw [List.lookup_cons] at h
    cases hk : (k == k') with
    | true =>
      rw [hk] at h
      have e1 : k = k' := by simpa using hk
      cases h
      subst e1
      exact List.mem_cons_self _ _
    | false =>
      rw [hk] at h
      exact List.mem_cons_of_mem _ (ih h)

theorem registry_destroyMaterial (w : World) (p : MaterialPtr) :
    ∀ e ∈ (destroyMaterial w p).registry, e ∈ w.registry := by
  intro e he
  cases p with
  | none => exact he
  | some h =>
    simp only [destroyMaterial, World.remove, World.unload, World.registry_modifyMaterial]
      at he
    exact (List.mem_filter.mp he).1

theorem registry_foldl_destroyMaterial (ps : List MaterialPtr) (w : World) :
    ∀ e ∈ (ps.foldl destroyMaterial w).registry, e ∈ w.registry := by
  induction ps generalizing w with
  | nil => exact fun _ h => h
  | cons p ps ih =>
    intro e he
    exact registry_destroyMaterial w p e (ih _ e he)

theorem reset_registryLive (w : World) (m : MeshResourceMarker) (hlive : w.RegistryLive) :
    (reset w m).1.RegistryLive := by
  intro e he
  rw [(reset_frame w m).2.2.2.1]
  apply hlive
  unfold reset at he
  cases hent : m.entity_ with
  | none =>
    rw [hent] at he
    exact registry_foldl_destroyMaterial _ _ e he
  | some e0 =>
    rw [hent] at he
    exact registry_foldl_destroyMaterial m.materials_ (w.destroyEntity e0) e he

theorem claim_of_needsRebuild {m : MeshResourceMarker} {old_message : Option AnimatedMarker}
    {new_message : AnimatedMarker}
    (h : needsRebuild m old_message new_message = .ok true) :
    m.entity_ = none ∨ ∃ o, old_message = some o ∧
      (o.mesh_resource ≠ new_message.mesh_resource ∨
       o.mesh_use_embedded_materials ≠ new_message.mesh_use_embedded_materials) := by
  unfold needsRebuild at h
  cases he : m.entity_ with
  | none => exact Or.inl rfl
  | some e =>
    rw [he] at h
    cases old_message with
    | none => cases h
    | some o =>
      refine Or.inr ⟨o, rfl, ?_⟩
      have h1 := Except.ok.inj h
      simp only [Bool.or_eq_true, decide_eq_true_eq] at h1
      exact h1

theorem reset_setVisible_world (w : World) (m : MeshResourceMarker) (v : Bool) :
    (reset w (m.setVisible v)).1 = (reset w m).1 := by
  unfold reset MeshResourceMarker.setVisible
  cases he : m.entity_ <;> simp

theorem reset_setVisible_attached (w : World) (m : MeshResourceMarker) (v : Bool) :
    (reset w (m.setVisible v)).2.scene_node_.attached = (reset w m).2.scene_node_.attached := by
  unfold reset MeshResourceMarker.setVisible
  cases he : m.entity_ <;> simp

theorem reset_attached (w : World) (m : MeshResourceMarker) :
    ∀ e0, m.entity_ = some e0 → e0.name ∉ (reset w m).2.scene_node_.attached := by
  intro e0 he
  unfold reset
  rw [he]
  simp

theorem cloneEmbedded_frame (id : String) (ptrs : List MaterialPtr) :
    ∀ (w : World) (ms : List MaterialPtr) (w' : World) (ms' : List MaterialPtr),
    cloneEmbedded id w ms ptrs = .ok (w', ms') → w'.entities = w.entities := by
  induction ptrs with
  | nil =>
    intro w ms w' ms' hok
    simp only [cloneEmbedded] at hok
    obtain ⟨h1, -⟩ := Prod.mk.inj (Except.ok.inj hok)
    rw [h1]
  | cons p rest ih =>
    intro w ms w' ms' hok
    cases p with
    | none => simp only [cloneEmbedded] at hok; cases hok
    | some h =>
      simp only [cloneEmbedded] at hok
      cases hm : w.heap[h]? with
      | none => simp only [hm] at hok; cases hok
      | some mat =>
        simp only [hm] at hok
        by_cases hbw : mat.name = "BaseWhiteNoLighting"
        · simp only [hbw, ne_eq, not_true_eq_false, if_false] at hok
          exact ih w ms w' ms' hok
        · simp only [ne_eq, hbw, not_false_eq_true, if_true] at hok
          cases hcl : w.clone h (id ++ mat.name) with
          | error e => simp only [hcl] at hok; cases hok
          | ok r =>
            obtain ⟨wc, c⟩ := r
            simp only [hcl] at hok
            obtain ⟨_, _, _, _, hwc⟩ := World.clone_spec hcl
            rw [ih wc _ w' ms' hok, hwc]

theorem buildEntity_entities {w : World} {m : MeshResourceMarker}
    {new_message : AnimatedMarker} {mesh : Mesh} {w2 : World} {m2 : MeshResourceMarker}
    (hok : buildEntity w m new_message mesh = .ok (w2, m2)) :
    entityName w.count ∉ w.entities ∧ w2.entities = entityName w.count :: w.entities := by
  obtain ⟨w1, created, e, hce, -, -, -, -, -, -, -, -, -, hplain, hembd⟩ := buildEntity_inv hok
  obtain ⟨hnot, -, -, hent, -⟩ := World.createEntity_spec hce
  refine ⟨hnot, ?_⟩
  cases hemb : new_message.mesh_use_embedded_materials with
  | false =>
    obtain ⟨-, -, hw2⟩ := hplain hemb
    have hlo := loadedOnly_foldl_load created.subEntities
      (w1.withDefaultMaterial (entityName w.count ++ "Material")) w1.heap.length
    rw [← hw2] at hlo
    rw [hlo.2.2.1]
    exact hent
  | true =>
    obtain ⟨w4, hcl, hu⟩ := hembd hemb
    have h4 := cloneEmbedded_frame _ _ _ _ _ _ hcl
    obtain ⟨hlo, -⟩ := useClonedMaterials_spec _ _ _ _ _ _ hu
    rw [hlo.2.2.1, h4]
    exact hent

theorem lookup_none_keys {β : Type} (l : List (String × β)) (k : String)
    (h : l.lookup k = none) : ∀ e ∈ l, e.1 ≠ k := by
  induction l with
  | nil => intro e he; simp at he
  | cons a es ih =>
    obtain ⟨k', v'⟩ := a
    rw [List.lookup_cons] at h
    cases hk : (k == k') with
    | true => rw [hk] at h; cases h
    | false =>
      rw [hk] at h
      intro e he
      rcases List.mem_cons.mp he with e1 | e1
      · subst e1
        intro e2
        have e3 : k' = k := e2
        subst e3
        simp at hk
      · exact ih h e e1

theorem reset_registry_subset (w : World) (m : MeshResourceMarker) :
    ∀ e ∈ (reset w m).1.registry, e ∈ w.registry := by
  intro e he
  unfold reset at he
  cases hent : m.entity_ with
  | none =>
    rw [hent] at he
    exact registry_foldl_destroyMaterial _ _ e he
  | some e0 =>
    rw [hent] at he
    exact registry_foldl_destroyMaterial m.materials_ (w.destroyEntity e0) e he

theorem reset_getByName_old (w : World) (m : MeshResourceMarker) (h : Nat) (mat : Material)
    (hmem : some h ∈ m.materials_) (hm : w.heap[h]? = some mat) :
    (reset w m).1.getByName mat.name = none := by
  unfold reset
  cases m.entity_ with
  | none => exact getByName_foldl_destroyMaterial_mem _ _ h mat hmem hm
  | some e => exact getByName_foldl_destroyMaterial_mem _ _ h mat hmem hm

theorem reset_not_registered (w : World) (m : MeshResourceMarker) (h : Nat) (mat : Material)
    (hnamed : w.RegistryNamed) (hmem : some h ∈ m.materials_) (hm : w.heap[h]? = some mat) :
    ∀ e ∈ (reset w m).1.registry, e.2 ≠ h := by
  intro e he e2
  have h1 := reset_registry_subset w m e he
  have h2 := lookup_none_keys _ _ (reset_getByName_old w m h mat hmem hm) e he
  have h3 := hnamed e h1
  rw [e2, hm] at h3
  exact h2 (Option.some.inj h3).symm

theorem load_heap_ne (w : World) {h h' : Nat} (hne : h ≠ h') :
    (w.load h').heap[h]? = w.heap[h]? := by
  unfold World.load
  rw [World.heap_modifyMaterial]
  cases w.heap[h]? <;> simp [hne]

theorem load_registry (w : World) (h : Nat) : (w.load h).registry = w.registry := by
  unfold World.load
  exact World.registry_modifyMaterial _ _ _

theorem resolveMaterial_registered {w : World} {n : String} {h : Nat}
    (hr : w.resolveMaterial n = .ok h) : ∃ e ∈ w.registry, e.2 = h := by
  unfold World.resolveMaterial at hr
  cases h1 : w.getByName n with
  | some h' =>
    rw [h1] at hr
    exact ⟨(n, h'), lookup_some_mem _ _ _ h1, Except.ok.inj hr⟩
  | none =>
    rw [h1] at hr
    cases h2 : w.getByName "BaseWhite" with
    | some h' =>
      rw [h2] at hr
      exact ⟨("BaseWhite", h'), lookup_some_mem _ _ _ h2, Except.ok.inj hr⟩
    | none => rw [h2] at hr; cases hr

theorem buildSubEntityList_untouched {names : List String} {w w1 : World}
    {subs : List SubEntity} (hok : w.buildSubEntityList names = .ok (w1, subs)) (h : Nat)
    (hnot : ∀ e ∈ w.registry, e.2 ≠ h) : w1.heap[h]? = w.heap[h]? := by
  induction names generalizing w w1 subs with
  | nil =>
    simp only [World.buildSubEntityList] at hok
    obtain ⟨h1, -⟩ := Prod.mk.inj (Except.ok.inj hok)
    rw [h1]
  | cons n rest ih =>
    simp only [World.buildSubEntityList] at hok
    cases hr : w.resolveMaterial n with
    | error e => simp only [hr] at hok; cases hok
    | ok h' =>
      simp only [hr] at hok
      cases hb : (w.load h').buildSubEntityList rest with
      | error e => simp only [hb] at hok; cases hok
      | ok r =>
        obtain ⟨w2, subs2⟩ := r
        simp only [hb] at hok
        obtain ⟨h1, -⟩ := Prod.mk.inj (Except.ok.inj hok)
        subst h1
        obtain ⟨e, he, e2⟩ := resolveMaterial_registered hr
        have hne : h ≠ h' := fun x => hnot e he (e2.trans x.symm)
        rw [ih hb (by rw [load_registry]; exact hnot), load_heap_ne w hne]

theorem createEntity_untouched {w w1 : World} {name meshName : String} {mesh : Mesh}
    {created : Entity} (hok : w.createEntity name meshName mesh = .ok (w1, created))
    (h : Nat) (hnot : ∀ e ∈ w.registry, e.2 ≠ h) : w1.heap[h]? = w.heap[h]? := by
  unfold World.createEntity at hok
  by_cases hmem : name ∈ w.entities
  · rw [if_pos hmem] at hok; cases hok
  · rw [if_neg hmem] at hok
    cases hb : w.buildSubEntityList mesh.subMeshMaterials with
    | error e => simp only [hb] at hok; cases hok
    | ok r =>
      obtain ⟨w2, subs⟩ := r
      simp only [hb] at hok
      obtain ⟨h1, -⟩ := Prod.mk.inj (Except.ok.inj hok)
      subst h1
      exact buildSubEntityList_untouched hb h hnot

theorem foldl_load_untouched {α : Type} (l : List α) (w : World) {h d : Nat} (hne : h ≠ d) :
    (l.foldl (fun acc _ => acc.load d) w).heap[h]? = w.heap[h]? := by
  induction l generalizing w with
  | nil => rfl
  | cons a l ih =>
    simp only [List.foldl]
    rw [ih, load_heap_ne w hne]

theorem useClonedMaterials_untouched (id : String) (d : Nat) (subs : List SubEntity) :
    ∀ (w w' : World) (subs' : List SubEntity),
    useClonedMaterials id d w subs = .ok (w', subs') →
    ∀ h, (∀ e ∈ w.registry, e.2 ≠ h) → h ≠ d → w'.heap[h]? = w.heap[h]? := by
  induction subs with
  | nil =>
    intro w w' subs' hok h _ _
    simp only [useClonedMaterials] at hok
    obtain ⟨h1, -⟩ := Prod.mk.inj (Except.ok.inj hok)
    rw [h1]
  | cons s rest ih =>
    intro w w' subs' hok h hnot hd
    simp only [useClonedMaterials] at hok
    cases ht : (if w.materialName s.material ≠ "BaseWhiteNoLighting" then
        w.resolveMaterial (id ++ w.materialName s.material) else Except.ok d) with
    | error e => simp only [ht] at hok; cases hok
    | ok h' =>
      simp only [ht] at hok
      cases hr : useClonedMaterials id d (w.load h') rest with
      | error e => simp only [hr] at hok; cases hok
      | ok r =>
        obtain ⟨w2, subs2⟩ := r
        simp only [hr] at hok
        obtain ⟨h1, -⟩ := Prod.mk.inj (Except.ok.inj hok)
        subst h1
        have hne : h ≠ h' := by
          by_cases hb : w.materialName s.material = "BaseWhiteNoLighting"
          · rw [if_neg (by simpa using hb)] at ht
            cases Except.ok.inj ht
            exact hd
          · rw [if_pos hb] at ht
            obtain ⟨e, he, e2⟩ := resolveMaterial_registered ht
            exact fun x => hnot e he (e2.trans x.symm)
        rw [ih (w.load h') w2 subs2 hr h (by rw [load_registry]; exact hnot) hd,
          load_heap_ne w hne]

theorem cloneEmbedded_extension (id : String) (ptrs : List MaterialPtr) :
    ∀ (w : World) (ms : List MaterialPtr) (w' : World) (ms' : List MaterialPtr),
    cloneEmbedded id w ms ptrs = .ok (w', ms') →
    (∃ ext, w'.heap = w.heap ++ ext) ∧
    (∀ e ∈ w'.registry, e ∈ w.registry ∨ w.heap.length ≤ e.2) ∧
    (∀ p ∈ ms', p ∈ ms ∨ ∃ c, p = some c ∧ w.heap.length ≤ c) := by
  induction ptrs with
  | nil =>
    intro w ms w' ms' hok
    simp only [cloneEmbedded] at hok
    obtain ⟨h1, h2⟩ := Prod.mk.inj (Except.ok.inj hok)
    subst h1; subst h2
    exact ⟨⟨[], by simp⟩, fun _ he => Or.inl he, fun _ hp => Or.inl hp⟩
  | cons p rest ih =>
    intro w ms w' ms' hok
    cases p with
    | none => simp only [cloneEmbedded] at hok; cases hok
    | some h =>
      simp only [cloneEmbedded] at hok
      cases hm : w.heap[h]? with
      | none => simp only [hm] at hok; cases hok
      | some mat =>
        simp only [hm] at hok
        by_cases hbw : mat.name = "BaseWhiteNoLighting"
        · simp only [hbw, ne_eq, not_true_eq_false, if_false] at hok
          exact ih w ms w' ms' hok
        · simp only [ne_eq, hbw, not_false_eq_true, if_true] at hok
          cases hcl : w.clone h (id ++ mat.name) with
          | error e => simp only [hcl] at hok; cases hok
          | ok r =>
            obtain ⟨wc, c⟩ := r
            simp only [hcl] at hok
            obtain ⟨mat2, _, _, hc, hwc⟩ := World.clone_spec hcl
            obtain ⟨⟨ext, i1⟩, i2, i3⟩ := ih wc _ w' ms' hok
            have hwch : wc.heap = w.heap ++ [{ mat2 with name := id ++ mat.name }] := by
              rw [hwc]
            have hwcr : wc.registry = (id ++ mat.name, w.heap.length) :: w.registry := by
              rw [hwc]
            have hlen : wc.heap.length = w.heap.length + 1 := by
              rw [hwch]; simp
            refine ⟨⟨{ mat2 with name := id ++ mat.name } :: ext, ?_⟩, ?_, ?_⟩
            · rw [i1, hwch, List.append_assoc, List.singleton_append]
            · intro e he
              rcases i2 e he with h1 | h1
              · rw [hwcr] at h1
                rcases List.mem_cons.mp h1 with h2 | h2
                · subst h2
                  exact Or.inr (Nat.le_refl _)
                · exact Or.inl h2
              · exact Or.inr (by omega)
            · intro q hq
              rcases i3 q hq with h1 | ⟨c', h1, h2⟩
              · rcases (setInsert_mem _ _ _).mp h1 with h3 | h3
                · exact Or.inr ⟨c, h3, by rw [hc]⟩
                · exact Or.inl h3
              · exact Or.inr ⟨c', h1, by omega⟩

theorem buildEntity_untouched {w : World} {m : MeshResourceMarker}
    {new_message : AnimatedMarker} {mesh : Mesh} {w2 : World} {m2 : MeshResourceMarker}
    (hok : buildEntity w m new_message mesh = .ok (w2, m2)) :
    (∀ p ∈ m2.materials_, p ∈ m.materials_ ∨ ∃ c, p = some c ∧ w.heap.length ≤ c) ∧
    ∀ h, h < w.heap.length → (∀ e ∈ w.registry, e.2 ≠ h) →
      w2.heap[h]? = w.heap[h]? ∧ ∀ e ∈ w2.registry, e.2 ≠ h := by
  obtain ⟨w1, created, e, hce, -, -, -, -, -, -, -, -, -, hplain, hembd⟩ := buildEntity_inv hok
  obtain ⟨-, -, -, -, hheap, hreg, -⟩ := World.createEntity_spec hce
  have hl1 : w1.heap.length = w.heap.length := by
    have := congrArg List.length hheap
    simpa using this
  have hW3 : (w1.withDefaultMaterial (entityName w.count ++ "Material")).heap =
      w1.heap ++ [defaultMaterial (entityName w.count ++ "Material")] := rfl
  have hW3r : (w1.withDefaultMaterial (entityName w.count ++ "Material")).registry =
      (entityName w.count ++ "Material", w1.heap.length) :: w1.registry := rfl
  have hbase : ∀ h, h < w.heap.length → (∀ e ∈ w.registry, e.2 ≠ h) →
      (w1.withDefaultMaterial (entityName w.count ++ "Material")).heap[h]? = w.heap[h]? ∧
      ∀ e ∈ (w1.withDefaultMaterial (entityName w.count ++ "Material")).registry,
        e.2 ≠ h := by
    intro h hh hnot
    constructor
    · rw [hW3, List.getElem?_append_left (by omega)]
      exact createEntity_untouched hce h hnot
    · intro e he
      rw [hW3r] at he
      rcases List.mem_cons.mp he with h1 | h1
      · subst h1
        show w1.heap.length ≠ h
        omega
      · rw [hreg] at h1
        exact hnot e h1
  cases hemb : new_message.mesh_use_embedded_materials with
  | false =>
    obtain ⟨hms, -, hw2⟩ := hplain hemb
    have hlo := loadedOnly_foldl_load created.subEntities
      (w1.withDefaultMaterial (entityName w.count ++ "Material")) w1.heap.length
    rw [← hw2] at hlo
    constructor
    · intro p hp
      rw [hms] at hp
      rcases (setInsert_mem _ _ _).mp hp with h1 | h1
      · exact Or.inr ⟨_, h1, by omega⟩
      · exact Or.inl h1
    · intro h hh hnot
      obtain ⟨b1, b2⟩ := hbase h hh hnot
      constructor
      · rw [hw2, foldl_load_untouched _ _ (by omega), b1]
      · rw [hlo.2.1]
        exact b2
  | true =>
    obtain ⟨w4, hcl, hu⟩ := hembd hemb
    obtain ⟨⟨ext, hext⟩, c2, c3⟩ := cloneEmbedded_extension _ _ _ _ _ _ hcl
    obtain ⟨hlo, -⟩ := useClonedMaterials_spec _ _ _ _ _ _ hu
    have hW3len : (w1.withDefaultMaterial (entityName w.count ++ "Material")).heap.length =
        w.heap.length + 1 := by
      rw [hW3]; simp [hl1]
    constructor
    · intro p hp
      rcases c3 p hp with h1 | ⟨c, h1, h2⟩
      · rcases (setInsert_mem _ _ _).mp h1 with h3 | h3
        · exact Or.inr ⟨_, h3, by omega⟩
        · exact Or.inl h3
      · exact Or.inr ⟨c, h1, by omega⟩
    · intro h hh hnot
      obtain ⟨b1, b2⟩ := hbase h hh hnot
      have hnot4 : ∀ e ∈ w4.registry, e.2 ≠ h := by
        intro e he
        rcases c2 e he with h1 | h1
        · exact b2 e h1
        · omega
      constructor
      · rw [useClonedMaterials_untouched _ _ _ _ _ _ hu h hnot4 (by omega), hext,
          List.getElem?_append_left (by omega), b1]
      · rw [hlo.2.1]
        exact hnot4

theorem applyColor_untouched {c : ColorRGBA} {ps : List MaterialPtr} {w w' : World}
    (hok : applyColor c w ps = .ok w') {h : Nat} (hnot : some h ∉ ps) :
    w'.heap[h]? = w.heap[h]? := by
  rw [applyColor_heap hok]
  cases w.heap[h]? with
  | none => rfl
  | some mat => simp [hnot]

/-- C2: for a call of `onNewMessage` that returns.  If the marker has no
entity, or the mesh resource or the embedded-materials flag differs from the
old message, the call goes through `reset`, which destroys the entity the
marker had (it is in neither the scene manager nor the scene node) and its
materials (unloaded, removed by name); with an empty resource or a failed load
the marker is left without entity and materials and the world as `reset` left
it; with a resource that loads, the marker has a new entity named
"mesh_resource_marker_<n>" made from `new.mesh_resource`, whose name was free,
now in the scene manager and attached to the scene node.  In the world the
call ends in, the entity the marker had is in neither the scene manager nor
the scene node (unless the new entity took its name), and, the material manager
keeping its materials under their own names, every material object the marker
had is unloaded and otherwise as it was, is no longer in the registry of the
material manager, and is not in `materials_`.  In every other case
the entity and `materials_` are unchanged, and so are the entities of the
scene manager, the registry of the material manager, the number of material
objects and the objects attached to the scene node. -/
theorem onNewMessage_swaps_on_resource_change (w : World) (m : MeshResourceMarker)
    (old_message : Option AnimatedMarker) (new_message : AnimatedMarker)
    (w' : World) (m' : MeshResourceMarker)
    (hok : onNewMessage w m old_message new_message = .ok (w', m')) :
    ((m.entity_ = none ∨ ∃ o, old_message = some o ∧
        (o.mesh_resource ≠ new_message.mesh_resource ∨
         o.mesh_use_embedded_materials ≠ new_message.mesh_use_embedded_materials)) →
      (∀ e0, m.entity_ = some e0 →
        e0.name ∉ (reset w m).1.entities ∧ e0.name ∉ (reset w m).2.scene_node_.attached) ∧
      (∀ h mat, some h ∈ m.materials_ → w.heap[h]? = some mat →
        (reset w m).1.heap[h]? = some { mat with loaded := false } ∧
        (reset w m).1.getByName mat.name = none) ∧
      (new_message.mesh_resource = "" ∨
          w.loadMeshFromResource new_message.mesh_resource = none →
        m'.entity_ = none ∧ m'.materials_ = [] ∧ w'.heap = (reset w m).1.heap ∧
        w'.registry = (reset w m).1.registry ∧ w'.entities = (reset w m).1.entities ∧
        m'.scene_node_.attached = (reset w m).2.scene_node_.attached) ∧
      (new_message.mesh_resource ≠ "" →
        ∀ mesh, w.loadMeshFromResource new_message.mesh_resource = some mesh →
        ∃ e, m'.entity_ = some e ∧
          e.name = "mesh_resource_marker_" ++ toString w.count ∧
          e.meshName = new_message.mesh_resource ∧
          e.name ∉ (reset w m).1.entities ∧
          w'.entities = e.name :: (reset w m).1.entities ∧
          m'.scene_node_.attached = e.name :: (reset w m).2.scene_node_.attached) ∧
      (∀ e0, m.entity_ = some e0 →
        e0.name ≠ "mesh_resource_marker_" ++ toString w.count →
        e0.name ∉ w'.entities ∧ e0.name ∉ m'.scene_node_.attached) ∧
      (w.RegistryNamed → ∀ h mat, some h ∈ m.materials_ → w.heap[h]? = some mat →
        w'.heap[h]? = some { mat with loaded := false } ∧
        (∀ e ∈ w'.registry, e.2 ≠ h) ∧ some h ∉ m'.materials_)) ∧
    (¬ (m.entity_ = none ∨ ∃ o, old_message = some o ∧
        (o.mesh_resource ≠ new_message.mesh_resource ∨
         o.mesh_use_embedded_materials ≠ new_message.mesh_use_embedded_materials)) →
      m'.entity_ = m.entity_ ∧ m'.materials_ = m.materials_ ∧ w'.entities = w.entities ∧
      w'.registry = w.registry ∧ w'.heap.length = w.heap.length ∧
      m'.scene_node_.attached = m.scene_node_.attached) := by
  have hRw := reset_setVisible_world w m false
  have hRa := reset_setVisible_attached w m false
  have hres1 := (reset_frame w m).1
  constructor
  · intro hload
    have hnr := needsRebuild_of_claim m old_message new_message hload
    have hr : rebuild w (m.setVisible false) new_message = .ok (w', m') := by
      rcases onNewMessage_cases hok with ⟨_, hr⟩ | ⟨hn, _⟩
      · exact hr
      · rw [hnr] at hn; cases hn
    have hdestroyed : ∀ e0, m.entity_ = some e0 →
        e0.name ∉ (reset w m).1.entities ∧
        e0.name ∉ (reset w m).2.scene_node_.attached := by
      intro e0 he0
      refine ⟨?_, reset_attached w m e0 he0⟩
      rw [reset_entities, he0]
      simp
    refine ⟨hdestroyed, ?_, ?_, ?_, ?_, ?_⟩
    · intro h mat hmem hm
      constructor
      · rw [reset_heap, hm]; simp [hmem]
      · unfold reset
        cases m.entity_ with
        | none => exact getByName_foldl_destroyMaterial_mem _ _ h mat hmem hm
        | some e => exact getByName_foldl_destroyMaterial_mem _ _ h mat hmem hm
    · intro hcase
      rcases rebuild_cases hr with ⟨_, h2⟩ | ⟨_, _, g1, g2, g3, g4, g5, g6⟩ |
          ⟨hne, mesh, _, _, hl, _⟩
      · obtain ⟨h3, h4⟩ := Prod.mk.inj h2
        subst h3; subst h4
        exact ⟨reset_entity _ _, reset_materials _ _, congrArg World.heap hRw,
          congrArg World.registry hRw, congrArg World.entities hRw, hRa⟩
      · rw [hRw] at g3 g4 g5
        exact ⟨g1, g2, g3, g4, g5, by rw [g6]; exact hRa⟩
      · rcases hcase with h | h
        · exact absurd h hne
        · rw [hRw, World.loadMeshFromResource, hres1] at hl
          rw [World.loadMeshFromResource, hl] at h
          cases h
    · intro hne mesh hmesh
      obtain ⟨w2, m2, hb, hc, hm⟩ := onNewMessage_rebuilt hok hload hne hmesh
      obtain ⟨-, f2, -⟩ := reset_frame w (m.setVisible false)
      obtain ⟨hfree, hents⟩ := buildEntity_entities hb
      obtain ⟨w1, created, e, -, -, he, hen, hem, hsn, -⟩ := buildEntity_inv hb
      rw [f2] at hfree hents hen hsn
      rw [hRw] at hfree hents
      refine ⟨e, by rw [hm]; exact he, hen, hem, ?_, ?_, ?_⟩
      · rw [hen]; exact hfree
      · rw [(applyColor_frame hc).2.1, hents, hen]
      · rw [hm]
        show m2.scene_node_.attached = _
        rw [hsn, hen, ← hRa]
    · intro e0 he0 hname
      obtain ⟨d1, d2⟩ := hdestroyed e0 he0
      rcases rebuild_cases hr with ⟨_, h2⟩ | ⟨_, _, _, _, _, _, g5, g6⟩ |
          ⟨hne, mesh, w2, m2, _, hb, hc, hm⟩
      · have h3 : w' = (reset w (m.setVisible false)).1 := (Prod.mk.inj h2).1
        have h4 : m' = (reset w (m.setVisible false)).2 := (Prod.mk.inj h2).2
        exact ⟨by rw [h3, hRw]; exact d1, by rw [h4, hRa]; exact d2⟩
      · rw [hRw] at g5
        exact ⟨by rw [g5]; exact d1, by rw [g6, hRa]; exact d2⟩
      · obtain ⟨-, f2, -⟩ := reset_frame w (m.setVisible false)
        obtain ⟨-, hents⟩ := buildEntity_entities hb
        obtain ⟨w1, created, e, -, -, -, -, -, hsn, -⟩ := buildEntity_inv hb
        rw [f2] at hents hsn
        rw [hRw] at hents
        constructor
        · rw [(applyColor_frame hc).2.1, hents]
          intro hin
          rcases List.mem_cons.mp hin with h1 | h1
          · exact hname h1
          · exact d1 h1
        · rw [hm]
          show e0.name ∉ m2.scene_node_.attached
          rw [hsn]
          intro hin
          rcases List.mem_cons.mp hin with h1 | h1
          · exact hname h1
          · rw [hRa] at h1
            exact d2 h1
    · intro hnamed h mat hmem hm0
      have hheapR : (reset w m).1.heap[h]? = some { mat with loaded := false } := by
        rw [reset_heap, hm0]; simp [hmem]
      have hnotR := reset_not_registered w m h mat hnamed hmem hm0
      have hlt : h < (reset w m).1.heap.length := by
        rw [(reset_frame w m).2.2.2.1]
        exact (List.getElem?_eq_some.mp hm0).1
      rcases rebuild_cases hr with ⟨_, h2⟩ | ⟨_, _, _, g2, g3, g4, _, _⟩ |
          ⟨hne, mesh, w2, m2, _, hb, hc, hm⟩
      · have h3 : w' = (reset w (m.setVisible false)).1 := (Prod.mk.inj h2).1
        have h4 : m' = (reset w (m.setVisible false)).2 := (Prod.mk.inj h2).2
        refine ⟨by rw [h3, hRw]; exact hheapR, by rw [h3, hRw]; exact hnotR, ?_⟩
        rw [h4, reset_materials]
        simp
      · rw [hRw] at g3 g4
        refine ⟨by rw [g3]; exact hheapR, by rw [g4]; exact hnotR, ?_⟩
        rw [g2]
        simp
      · rw [hRw] at hb
        obtain ⟨hmats, hunt⟩ := buildEntity_untouched hb
        obtain ⟨u1, u2⟩ := hunt h hlt hnotR
        have hnotin : some h ∉ m2.materials_ := by
          intro hin
          rcases hmats (some h) hin with h1 | ⟨c, h1, h2⟩
          · rw [reset_materials] at h1
            simp at h1
          · cases h1
            omega
        refine ⟨?_, ?_, ?_⟩
        · rw [applyColor_untouched hc hnotin, u1]
          exact hheapR
        · rw [(applyColor_frame hc).1]
          exact u2
        · rw [hm]
          exact hnotin
  · intro hnot
    have hr : recolor w (m.setVisible false) old_message new_message = .ok (w', m') := by
      rcases onNewMessage_cases hok with ⟨hn, _⟩ | ⟨_, hr⟩
      · exact absurd (claim_of_needsRebuild hn) hnot
      · exact hr
    obtain ⟨hm, ⟨_, ha⟩ | ⟨_, hw⟩⟩ := recolor_cases hr
    · obtain ⟨a1, a2, _, _, _, a6⟩ := applyColor_frame ha
      rw [hm]
      exact ⟨rfl, rfl, a2, a1, a6, rfl⟩
    · rw [hm, hw]
      exact ⟨rfl, rfl, rfl, rfl, rfl, rfl⟩

/-! ## The registry stays live -/

theorem registryLive_of_same {w w' : World} (hr : w'.registry = w.registry)
    (hl : w'.heap.length = w.heap.length) (hlive : w.RegistryLive) : w'.RegistryLive := by
  intro e he
  rw [hl]
  rw [hr] at he
  exact hlive e he

theorem World.LoadedOnly.registryLive {w w' : World} (h : w.LoadedOnly w')
    (hlive : w.RegistryLive) : w'.RegistryLive :=
  registryLive_of_same h.2.1 h.length hlive

theorem registryLive_push (w : World) (mat : Material) (name : String)
    (hlive : w.RegistryLive) :
    ({ w with heap := w.heap ++ [mat],
              registry := (name, w.heap.length) :: w.registry } : World).RegistryLive := by
  intro e he
  simp only [List.length_append, List.length_singleton]
  rcases List.mem_cons.mp he with h | h
  · subst h
    exact Nat.lt_succ_self _
  · exact Nat.lt_succ_of_lt (hlive e h)

theorem cloneEmbedded_registryLive (id : String) (ptrs : List MaterialPtr) :
    ∀ (w : World) (ms : List MaterialPtr) (w' : World) (ms' : List MaterialPtr),
    cloneEmbedded id w ms ptrs = .ok (w', ms') → w.RegistryLive → w'.RegistryLive := by
  induction ptrs with
  | nil =>
    intro w ms w' ms' hok hlive
    simp only [cloneEmbedded] at hok
    obtain ⟨h1, -⟩ := Prod.mk.inj (Except.ok.inj hok)
    rw [← h1]
    exact hlive
  | cons p rest ih =>
    intro w ms w' ms' hok hlive
    cases p with
    | none => simp only [cloneEmbedded] at hok; cases hok
    | some h =>
      simp only [cloneEmbedded] at hok
      cases hm : w.heap[h]? with
      | none => simp only [hm] at hok; cases hok
      | some mat =>
        simp only [hm] at hok
        by_cases hbw : mat.name = "BaseWhiteNoLighting"
        · simp only [hbw, ne_eq, not_true_eq_false, if_false] at hok
          exact ih w ms w' ms' hok hlive
        · simp only [ne_eq, hbw, not_false_eq_true, if_true] at hok
          cases hcl : w.clone h (id ++ mat.name) with
          | error e => simp only [hcl] at hok; cases hok
          | ok r =>
            obtain ⟨wc, c⟩ := r
            simp only [hcl] at hok
            obtain ⟨mat2, _, _, _, hwc⟩ := World.clone_spec hcl
            refine ih wc _ w' ms' hok ?_
            rw [hwc]
            exact registryLive_push w _ _ hlive

theorem buildEntity_registryLive {w : World} {m : MeshResourceMarker}
    {new_message : AnimatedMarker} {mesh : Mesh} {w2 : World} {m2 : MeshResourceMarker}
    (hok : buildEntity w m new_message mesh = .ok (w2, m2)) (hlive : w.RegistryLive) :
    w2.RegistryLive := by
  obtain ⟨w1, created, e, hce, -, -, -, -, -, -, -, -, -, hplain, hembd⟩ := buildEntity_inv hok
  obtain ⟨-, -, -, -, hheap, hreg, -⟩ := World.createEntity_spec hce
  have hlive1 : w1.RegistryLive := by
    refine registryLive_of_same hreg ?_ hlive
    have := congrArg List.length hheap
    simpa using this
  have hlive3 : (w1.withDefaultMaterial (entityName w.count ++ "Material")).RegistryLive :=
    registryLive_push w1 _ _ hlive1
  cases hemb : new_message.mesh_use_embedded_materials with
  | false =>
    obtain ⟨-, -, hw2⟩ := hplain hemb
    rw [hw2]
    exact (loadedOnly_foldl_load _ _ _).registryLive hlive3
  | true =>
    obtain ⟨w4, hcl, hu⟩ := hembd hemb
    obtain ⟨hlo, -⟩ := useClonedMaterials_spec _ _ _ _ _ _ hu
    exact hlo.registryLive (cloneEmbedded_registryLive _ _ _ _ _ _ hcl hlive3)

/-- The liveness of the registry is an invariant of `onNewMessage`. -/
theorem onNewMessage_registryLive {w : World} {m : MeshResourceMarker}
    {old_message : Option AnimatedMarker} {new_message : AnimatedMarker}
    {w' : World} {m' : MeshResourceMarker}
    (hok : onNewMessage w m old_message new_message = .ok (w', m'))
    (hlive : w.RegistryLive) : w'.RegistryLive := by
  rcases onNewMessage_cases hok with ⟨_, hr⟩ | ⟨_, hr⟩
  · have hR := reset_registryLive w (m.setVisible false) hlive
    rcases rebuild_cases hr with ⟨_, h2⟩ | ⟨_, _, _, _, g3, g4, _, _⟩ |
        ⟨_, mesh, w2, m2, _, hb, hc, _⟩
    · obtain ⟨h3, -⟩ := Prod.mk.inj h2
      rw [h3]
      exact hR
    · exact registryLive_of_same g4 (congrArg List.length g3) hR
    · obtain ⟨a1, _, _, _, _, a6⟩ := applyColor_frame hc
      exact registryLive_of_same a1 a6 (buildEntity_registryLive hb hR)
  · obtain ⟨_, ⟨_, ha⟩ | ⟨_, hw⟩⟩ := recolor_cases hr
    · obtain ⟨a1, _, _, _, _, a6⟩ := applyColor_frame ha
      exact registryLive_of_same a1 a6 hlive
    · rw [hw]
      exact hlive

/-! ## The registry stays named -/

theorem World.RegistryNamed.live {w : World} (h : w.RegistryNamed) : w.RegistryLive := by
  intro e he
  have := h e he
  cases hm : w.heap[e.2]? with
  | none => rw [hm] at this; cases this
  | some mat => exact (List.getElem?_eq_some.mp hm).1

theorem registryNamed_of_names {w w' : World}
    (hr : ∀ e : String × Nat, e ∈ w'.registry → e ∈ w.registry)
    (hn : ∀ k : Nat, (w'.heap[k]?).map Material.name = (w.heap[k]?).map Material.name)
    (h : w.RegistryNamed) : w'.RegistryNamed := by
  intro e he
  rw [hn]
  exact h e (hr e he)

theorem World.LoadedOnly.registryNamed {w w' : World} (h : w.LoadedOnly w')
    (hnamed : w.RegistryNamed) : w'.RegistryNamed := by
  refine registryNamed_of_names (by rw [h.2.1]; exact fun _ he => he) ?_ hnamed
  intro k
  have := h.getElem? k
  cases h1 : w.heap[k]? <;> cases h2 : w'.heap[k]? <;> rw [h1, h2] at this <;>
    simp [Material.unloaded] at this ⊢
  exact this.1

theorem registryNamed_push (w : World) (mat : Material) (hnamed : w.RegistryNamed) :
    ({ w with heap := w.heap ++ [mat],
              registry := (mat.name, w.heap.length) :: w.registry } : World).RegistryNamed := by
  intro e he
  rcases List.mem_cons.mp he with h | h
  · subst h
    show ((w.heap ++ [mat])[w.heap.length]?).map Material.name = some mat.name
    rw [getElem?_append_length]
    rfl
  · show ((w.heap ++ [mat])[e.2]?).map Material.name = some e.1
    rw [List.getElem?_append_left (hnamed.live e h)]
    exact hnamed e h

theorem destroyMaterial_registryNamed (w : World) (p : MaterialPtr)
    (hnamed : w.RegistryNamed) : (destroyMaterial w p).RegistryNamed := by
  refine registryNamed_of_names (registry_destroyMaterial w p) ?_ hnamed
  intro k
  rw [heap_destroyMaterial]
  cases w.heap[k]? with
  | none => rfl
  | some mat => by_cases hp : p = some k <;> simp [hp]

theorem foldl_destroyMaterial_registryNamed (ps : List MaterialPtr) (w : World)
    (hnamed : w.RegistryNamed) : (ps.foldl destroyMaterial w).RegistryNamed := by
  induction ps generalizing w with
  | nil => exact hnamed
  | cons p ps ih => exact ih _ (destroyMaterial_registryNamed w p hnamed)

theorem reset_registryNamed (w : World) (m : MeshResourceMarker) (hnamed : w.RegistryNamed) :
    (reset w m).1.RegistryNamed := by
  unfold reset
  cases hent : m.entity_ with
  | none => exact foldl_destroyMaterial_registryNamed _ _ hnamed
  | some e0 => exact foldl_destroyMaterial_registryNamed m.materials_ (w.destroyEntity e0) hnamed

theorem cloneEmbedded_registryNamed (id : String) (ptrs : List MaterialPtr) :
    ∀ (w : World) (ms : List MaterialPtr) (w' : World) (ms' : List MaterialPtr),
    cloneEmbedded id w ms ptrs = .ok (w', ms') → w.RegistryNamed → w'.RegistryNamed := by
  induction ptrs with
  | nil =>
    intro w ms w' ms' hok hnamed
    simp only [cloneEmbedded] at hok
    obtain ⟨h1, -⟩ := Prod.mk.inj (Except.ok.inj hok)
    rw [← h1]
    exact hnamed
  | cons p rest ih =>
    intro w ms w' ms' hok hnamed
    cases p with
    | none => simp only [cloneEmbedded] at hok; cases hok
    | some h =>
      simp only [cloneEmbedded] at hok
      cases hm : w.heap[h]? with
      | none => simp only [hm] at hok; cases hok
      | some mat =>
        simp only [hm] at hok
        by_cases hbw : mat.name = "BaseWhiteNoLighting"
        · simp only [hbw, ne_eq, not_true_eq_false, if_false] at hok
          exact ih w ms w' ms' hok hnamed
        · simp only [ne_eq, hbw, not_false_eq_true, if_true] at hok
          cases hcl : w.clone h (id ++ mat.name) with
          | error e => simp only [hcl] at hok; cases hok
          | ok r =>
            obtain ⟨wc, c⟩ := r
            simp only [hcl] at hok
            obtain ⟨mat2, _, _, _, hwc⟩ := World.clone_spec hcl
            refine ih wc _ w' ms' hok ?_
            rw [hwc]
            exact registryNamed_push w { mat2 with name := id ++ mat.name } hnamed

theorem buildEntity_registryNamed {w : World} {m : MeshResourceMarker}
    {new_message : AnimatedMarker} {mesh : Mesh} {w2 : World} {m2 : MeshResourceMarker}
    (hok : buildEntity w m new_message mesh = .ok (w2, m2)) (hnamed : w.RegistryNamed) :
    w2.RegistryNamed := by
  obtain ⟨w1, created, e, hce, -, -, -, -, -, -, -, -, -, hplain, hembd⟩ := buildEntity_inv hok
  obtain ⟨-, -, -, -, hheap, hreg, -⟩ := World.createEntity_spec hce
  have hnamed1 : w1.RegistryNamed := by
    refine registryNamed_of_names (by rw [hreg]; exact fun _ he => he) ?_ hnamed
    intro k
    have := congrArg (fun l => (l[k]?).map Material.name) hheap
    simp only [List.getElem?_map, Option.map_map] at this
    exact this
  have hnamed3 : (w1.withDefaultMaterial (entityName w.count ++ "Material")).RegistryNamed :=
    registryNamed_push w1 (defaultMaterial (entityName w.count ++ "Material")) hnamed1
  cases hemb : new_message.mesh_use_embedded_materials with
  | false =>
    obtain ⟨-, -, hw2⟩ := hplain hemb
    rw [hw2]
    exact (loadedOnly_foldl_load _ _ _).registryNamed hnamed3
  | true =>
    obtain ⟨w4, hcl, hu⟩ := hembd hemb
    obtain ⟨hlo, -⟩ := useClonedMaterials_spec _ _ _ _ _ _ hu
    exact hlo.registryNamed (cloneEmbedded_registryNamed _ _ _ _ _ _ hcl hnamed3)

theorem applyColor_registryNamed {c : ColorRGBA} {ps : List MaterialPtr} {w w' : World}
    (hok : applyColor c w ps = .ok w') (hnamed : w.RegistryNamed) : w'.RegistryNamed := by
  refine registryNamed_of_names (by rw [(applyColor_frame hok).1]; exact fun _ he => he) ?_
    hnamed
  intro k
  have := applyColor_preserves hok k
  cases h1 : w.heap[k]? <;> cases h2 : w'.heap[k]? <;> rw [h1, h2] at this <;>
    simp at this ⊢
  exact this.1

/-- That the material manager keeps every material under its own name is an
invariant of `onNewMessage`. -/
theorem onNewMessage_registryNamed {w : World} {m : MeshResourceMarker}
    {old_message : Option AnimatedMarker} {new_message : AnimatedMarker}
    {w' : World} {m' : MeshResourceMarker}
    (hok : onNewMessage w m old_message new_message = .ok (w', m'))
    (hnamed : w.RegistryNamed) : w'.RegistryNamed := by
  rcases onNewMessage_cases hok with ⟨_, hr⟩ | ⟨_, hr⟩
  · have hR := reset_registryNamed w (m.setVisible false) hnamed
    rcases rebuild_cases hr with ⟨_, h2⟩ | ⟨_, _, _, _, g3, g4, _, _⟩ |
        ⟨_, mesh, w2, m2, _, hb, hc, _⟩
    · have h3 : w' = (reset w (m.setVisible false)).1 := (Prod.mk.inj h2).1
      rw [h3]
      exact hR
    · exact registryNamed_of_names (by rw [g4]; exact fun _ he => he)
        (by intro k; rw [g3]) hR
    · exact applyColor_registryNamed hc (buildEntity_registryNamed hb hR)
  · obtain ⟨_, ⟨_, ha⟩ | ⟨_, hw⟩⟩ := recolor_cases hr
    · exact applyColor_registryNamed ha hnamed
    · rw [hw]
      exact hnamed

/-! ## The theorems at the sample scene -/

theorem samplePlain_ok :
    onNewMessage sampleWorld sampleMarker none
      (sampleMessage "package://demo/robot.dae" false
        ⟨Real32.fin 0, Real32.fin 0, Real32.fin 0, Real32.fin (1 / 2)⟩) =
      .ok (samplePlain.1, samplePlain.2) := by
  rfl

theorem sampleEmbedded_ok :
    onNewMessage sampleWorld sampleMarker none
      (sampleMessage "package://demo/robot.dae" true
        ⟨Real32.fin 0, Real32.fin 0, Real32.fin 0, Real32.fin 0⟩) =
      .ok (sampleEmbedded.1, sampleEmbedded.2) := by
  rfl

/-- The load-failure theorem at the sample marker and a resource that is not
there: the call returns, without entity and materials, and the display shows
the Error status under the id ("demo", 3). -/
theorem onNewMessage_load_failure_reported_witness :
    sampleMarker.entity_ = none ∧ "package://demo/missing.dae" ≠ "" ∧
    sampleWorld.loadMeshFromResource "package://demo/missing.dae" = none ∧
    ∃ w' m' d', onNewMessage sampleWorld sampleMarker none
        (sampleMessage "package://demo/missing.dae" false
          ⟨Real32.fin 1, Real32.fin 0, Real32.fin 0, Real32.fin 1⟩) = .ok (w', m') ∧
      m'.entity_ = none ∧ m'.materials_ = [] ∧ m'.owner_ = some d' ∧
      d'.markerStatus ("demo", 3) = some (StatusLevel.Error,
        "Mesh resource marker [demo/3] could not load [package://demo/missing.dae]") := by
  refine ⟨rfl, by decide, rfl, ?_⟩
  obtain ⟨w', m', h1, h2, h3, -, -, -, h7, -⟩ :=
    onNewMessage_load_failure_reported sampleWorld sampleMarker none
      (sampleMessage "package://demo/missing.dae" false
        ⟨Real32.fin 1, Real32.fin 0, Real32.fin 0, Real32.fin 1⟩)
      (Or.inl rfl) (by decide) rfl
  obtain ⟨d', hd1, hd2⟩ := h7 _ rfl
  exact ⟨w', m', d', h1, h2, h3, hd1, hd2⟩

/-- The colour theorem at the sample marker and an embedded-materials message
with the colour left at 0: the first material is white. -/
theorem onNewMessage_colour_of_message_witness :
    appliesColor sampleWorld sampleMarker none
      (sampleMessage "package://demo/robot.dae" true
        ⟨Real32.fin 0, Real32.fin 0, Real32.fin 0, Real32.fin 0⟩) = true ∧
    ∀ p ∈ sampleEmbedded.2.materials_, ∃ h mat, p = some h ∧
      sampleEmbedded.1.heap[h]? = some mat ∧
      mat.technique0.diffuse = (Real32.fin 1, Real32.fin 1, Real32.fin 1, Real32.fin 1) :=
  ⟨rfl, fun p hp =>
    ((onNewMessage_colour_of_message sampleWorld sampleMarker none
      (sampleMessage "package://demo/robot.dae" true
        ⟨Real32.fin 0, Real32.fin 0, Real32.fin 0, Real32.fin 0⟩)
      sampleEmbedded.1 sampleEmbedded.2 sampleEmbedded_ok rfl).1 p hp).elim
      (fun h hh => hh.elim (fun mat hm =>
        ⟨h, mat, hm.1, hm.2.1, by rw [hm.2.2.1 rfl rfl]⟩))⟩

/-- The default-material theorem at the sample marker and a message without
embedded materials: the one material of the marker is the object at address
3. -/
theorem onNewMessage_default_material_only_witness :
    sampleMarker.entity_ = none ∧
    sampleWorld.loadMeshFromResource "package://demo/robot.dae" =
      some { subMeshMaterials := ["Wood", "BaseWhiteNoLighting", "Wood"]
             animations := some ["walk"] } ∧
    samplePlain.2.materials_ = [some 3] :=
  ⟨rfl, rfl,
    (onNewMessage_default_material_only sampleWorld sampleMarker none
      (sampleMessage "package://demo/robot.dae" false
        ⟨Real32.fin 0, Real32.fin 0, Real32.fin 0, Real32.fin (1 / 2)⟩)
      { subMeshMaterials := ["Wood", "BaseWhiteNoLighting", "Wood"]
        animations := some ["walk"] }
      samplePlain.1 samplePlain.2 samplePlain_ok (Or.inl rfl) (by decide) rfl rfl).1⟩

/-- The marker-table theorem at a table that stored the key ("demo", 3) twice
and at the sample marker: the handler is registered under ("demo", 3). -/
theorem markers_keyed_one_per_id_witness :
    sampleMarker.entity_ = none ∧
    (storeMarker (runTable [TableOp.store ("demo", 3) 1, TableOp.store ("demo", 3) 2])
      ("demo", (3 : Int)) (5 : Nat)).lookup ("demo", 3) = some 5 ∧
    samplePlain.2.handler_ =
      some { marker_id := ("demo", 3), tracked := ["mesh_resource_marker_7"] } :=
  ⟨rfl,
    (markers_keyed_one_per_id [TableOp.store ("demo", 3) 1, TableOp.store ("demo", 3) 2]
      ("demo", 3) 5 sampleWorld sampleMarker none
      (sampleMessage "package://demo/robot.dae" false
        ⟨Real32.fin 0, Real32.fin 0, Real32.fin 0, Real32.fin (1 / 2)⟩)
      { subMeshMaterials := ["Wood", "BaseWhiteNoLighting", "Wood"]
        animations := some ["walk"] }
      samplePlain.1 samplePlain.2 samplePlain_ok (Or.inl rfl) (by decide) rfl).2.2.2.1,
    (markers_keyed_one_per_id [TableOp.store ("demo", 3) (1 : Nat), TableOp.store ("demo", 3) 2]
      ("demo", 3) 5 sampleWorld sampleMarker none
      (sampleMessage "package://demo/robot.dae" false
        ⟨Real32.fin 0, Real32.fin 0, Real32.fin 0, Real32.fin (1 / 2)⟩)
      { subMeshMaterials := ["Wood", "BaseWhiteNoLighting", "Wood"]
        animations := some ["walk"] }
      samplePlain.1 samplePlain.2 samplePlain_ok (Or.inl rfl) (by decide) rfl).2.2.2.2⟩

theorem sampleSwapped_ok :
    onNewMessage samplePlain.1 samplePlain.2
      (some (sampleMessage "package://demo/robot.dae" false
        ⟨Real32.fin 0, Real32.fin 0, Real32.fin 0, Real32.fin (1 / 2)⟩))
      (sampleMessage "package://demo/robot.dae" true
        ⟨Real32.fin 0, Real32.fin 0, Real32.fin 0, Real32.fin 0⟩) =
      .ok (sampleSwapped.1, sampleSwapped.2) := by
  rfl

/-- The swap theorem at the second message of the sample marker, which changes
the embedded-materials flag: the entity "mesh_resource_marker_7" of the first
message is gone after `reset`, the marker has the new entity
"mesh_resource_marker_8", and the material at address 3, which the marker had,
is unloaded, out of the registry and out of `materials_` in the end. -/
theorem onNewMessage_swaps_on_resource_change_witness :
    (∀ e0, samplePlain.2.entity_ = some e0 →
      e0.name ∉ (reset samplePlain.1 samplePlain.2).1.entities ∧
      e0.name ∉ (reset samplePlain.1 samplePlain.2).2.scene_node_.attached) ∧
    (∃ e, sampleSwapped.2.entity_ = some e ∧
      e.name = "mesh_resource_marker_" ++ toString samplePlain.1.count ∧
      e.meshName = "package://demo/robot.dae" ∧
      e.name ∉ (reset samplePlain.1 samplePlain.2).1.entities ∧
      sampleSwapped.1.entities = e.name :: (reset samplePlain.1 samplePlain.2).1.entities ∧
      sampleSwapped.2.scene_node_.attached =
        e.name :: (reset samplePlain.1 samplePlain.2).2.scene_node_.attached) ∧
    samplePlain.1.RegistryNamed ∧ some 3 ∈ samplePlain.2.materials_ ∧
    ∃ mat, samplePlain.1.heap[3]? = some mat ∧
      sampleSwapped.1.heap[3]? = some { mat with loaded := false } ∧
      (∀ e ∈ sampleSwapped.1.registry, e.2 ≠ 3) ∧ some 3 ∉ sampleSwapped.2.materials_ := by
  have hthm := (onNewMessage_swaps_on_resource_change samplePlain.1 samplePlain.2
      (some (sampleMessage "package://demo/robot.dae" false
        ⟨Real32.fin 0, Real32.fin 0, Real32.fin 0, Real32.fin (1 / 2)⟩))
      (sampleMessage "package://demo/robot.dae" true
        ⟨Real32.fin 0, Real32.fin 0, Real32.fin 0, Real32.fin 0⟩)
      sampleSwapped.1 sampleSwapped.2 sampleSwapped_ok).1
      (Or.inr ⟨_, rfl, Or.inr (by decide)⟩)
  have hnamed : samplePlain.1.RegistryNamed := by decide
  have hmem : some 3 ∈ samplePlain.2.materials_ := by decide
  refine ⟨hthm.1, hthm.2.2.2.1 (by decide)
      { subMeshMaterials := ["Wood", "BaseWhiteNoLighting", "Wood"]
        animations := some ["walk"] } rfl, hnamed, hmem, ?_⟩
  cases hm : samplePlain.1.heap[3]? with
  | none => exact absurd hm (by decide)
  | some mat => exact ⟨mat, rfl, hthm.2.2.2.2.2 hnamed 3 mat hmem hm⟩

theorem sampleFaintRed_ok :
    onNewMessage sampleWorld sampleMarker none
      (sampleMessage "package://demo/robot.dae" true
        ⟨Real32.fin (1 / 2 ^ 149), Real32.fin 0, Real32.fin 0, Real32.fin 1⟩) =
      .ok (sampleFaintRed.1, sampleFaintRed.2) := by
  rfl

theorem sampleFaintGreen_ok :
    onNewMessage sampleWorld sampleMarker none
      (sampleMessage "package://demo/robot.dae" false
        ⟨Real32.fin 0, Real32.fin (3 / 2 ^ 149), Real32.fin 0, Real32.fin 1⟩) =
      .ok (sampleFaintGreen.1, sampleFaintGreen.2) := by
  rfl

/-- C4 as stated fails: for the message with embedded materials and the
colour (2^-149, 0, 0, 1), which has a non-zero component, the colour block
runs and the material at address 3 of `materials_` gets the ambient (0, 0, 0),
which is not half of r, g, b: half of r is 2^-150. -/
theorem onNewMessage_colour_of_message_counterexample :
    appliesColor sampleWorld sampleMarker none
      (sampleMessage "package://demo/robot.dae" true
        ⟨Real32.fin (1 / 2 ^ 149), Real32.fin 0, Real32.fin 0, Real32.fin 1⟩) = true ∧
    Real32.fin (1 / 2 ^ 149) ≠ Real32.fin 0 ∧
    onNewMessage sampleWorld sampleMarker none
      (sampleMessage "package://demo/robot.dae" true
        ⟨Real32.fin (1 / 2 ^ 149), Real32.fin 0, Real32.fin 0, Real32.fin 1⟩) =
      .ok (sampleFaintRed.1, sampleFaintRed.2) ∧
    some 3 ∈ sampleFaintRed.2.materials_ ∧
    ∃ mat, sampleFaintRed.1.heap[3]? = some mat ∧
      mat.technique0.ambient = (Real32.fin 0, Real32.fin 0, Real32.fin 0) ∧
      mat.technique0.ambient ≠
        (Real32.fin (1 / 2 ^ 149 * (1 / 2)), Real32.fin (0 * (1 / 2)),
          Real32.fin (0 * (1 / 2))) := by
  have hne : Real32.fin (1 / 2 ^ 149) ≠ Real32.fin 0 := by
    intro h
    have := Real32.fin.inj h
    norm_num at this
  have hmem : some 3 ∈ sampleFaintRed.2.materials_ := by decide
  refine ⟨rfl, hne, sampleFaintRed_ok, hmem, ?_⟩
  obtain ⟨w2, hc⟩ := onNewMessage_applyColor sampleFaintRed_ok rfl
  obtain ⟨h, mat, hp, hmat, ht⟩ := applyColor_technique hc (some 3) hmem
  cases hp
  rw [effectiveColor_unchanged _ (Or.inr (Or.inl hne))] at ht
  have hamb : mat.technique0.ambient = (Real32.fin 0, Real32.fin 0, Real32.fin 0) := by
    rw [ht]
    show ((Real32.fin (1 / 2 ^ 149)).half, (Real32.fin 0).half, (Real32.fin 0).half) = _
    rw [Real32.half_least, Real32.half_zero]
  refine ⟨mat, hmat, hamb, ?_⟩
  rw [hamb]
  intro h
  have h1 := Real32.fin.inj (Prod.mk.inj h).1
  norm_num at h1

/-- C6 as stated fails: for the message without embedded materials and the
colour (0, 3·2^-149, 0, 1) the one material of the marker, at address 3, gets
the ambient (0, 2^-148, 0), which is not half of r, g, b: half of g is
3·2^-150. -/
theorem onNewMessage_default_material_only_counterexample :
    sampleMarker.entity_ = none ∧
    onNewMessage sampleWorld sampleMarker none
      (sampleMessage "package://demo/robot.dae" false
        ⟨Real32.fin 0, Real32.fin (3 / 2 ^ 149), Real32.fin 0, Real32.fin 1⟩) =
      .ok (sampleFaintGreen.1, sampleFaintGreen.2) ∧
    sampleFaintGreen.2.materials_ = [some 3] ∧
    ∃ mat, sampleFaintGreen.1.heap[3]? = some mat ∧
      mat.technique0.ambient = (Real32.fin 0, Real32.fin (1 / 2 ^ 148), Real32.fin 0) ∧
      mat.technique0.ambient ≠
        (Real32.fin (0 * (1 / 2)), Real32.fin (3 / 2 ^ 149 * (1 / 2)),
          Real32.fin (0 * (1 / 2))) := by
  have hms : sampleFaintGreen.2.materials_ = [some 3] := by decide
  refine ⟨rfl, sampleFaintGreen_ok, hms, ?_⟩
  obtain ⟨w2, hc⟩ := onNewMessage_applyColor sampleFaintGreen_ok rfl
  obtain ⟨h, mat, hp, hmat, ht⟩ :=
    applyColor_technique hc (some 3) (by rw [hms]; exact List.mem_cons_self _ _)
  cases hp
  rw [effectiveColor_unchanged _ (Or.inl rfl)] at ht
  have hamb : mat.technique0.ambient =
      (Real32.fin 0, Real32.fin (1 / 2 ^ 148), Real32.fin 0) := by
    rw [ht]
    show ((Real32.fin 0).half, (Real32.fin (3 / 2 ^ 149)).half, (Real32.fin 0).half) = _
    rw [Real32.half_three_least, Real32.half_zero]
  refine ⟨mat, hmat, hamb, ?_⟩
  rw [hamb]
  intro h
  have h1 := Real32.fin.inj (Prod.mk.inj (Prod.mk.inj h).2).1
  norm_num at h1

end animated_marker_rviz_plugin
